import Mathlib

/-
Verification of the stage-4 predicate forward-chaining engine of the
Discrete-Mathematics repository.  Two implementations are embedded:

* `S4_...`  : src/stage4_predicate/reasoner.py
* `Q_...`   : src/reasoner_quiz/stage4_predicate/reasoner.py

Python terms are arbitrary objects; the engine manipulates strings, tuples,
lists and (potentially) None.  `Term` models exactly those.  Python tuples
are `Term.tup`, Python lists are `Term.lst` (substitution does not descend
into lists, mirroring `isinstance(expr, tuple)` checks), `Term.pyNone`
models the Python `None` value.

Python dictionaries (substitutions) are modelled as association lists with
first-match lookup (`findSub`) and update-or-append insertion
(`dictInsert`), which matches dict semantics for the operations the code
performs.  In-place mutation (the stage4 `unify_var` writes into the shared
dict) is modelled by state passing: `unifyS` returns the final state of the
dictionary object together with the success flag, since the Python function
returns either the very dict it mutated or `None`.

Recursive functions whose termination depends on run-time data
(`unify`/`unify_var`/`occurs_check` chase bindings stored in the
substitution) are given a fuel parameter; `none` means the fuel was
exhausted and corresponds to no behaviour of the terminating Python runs.
-/

inductive Term where
  | str : String → Term
  | tup : List Term → Term
  | lst : List Term → Term
  | pyNone : Term

mutual
def Term.decEq : (a b : Term) → Decidable (a = b)
  | .str a, .str b =>
    match String.decEq a b with
    | isTrue h => isTrue (by rw [h])
    | isFalse h => isFalse (fun he => h (by cases he; rfl))
  | .tup a, .tup b =>
    match Term.decEqList a b with
    | isTrue h => isTrue (by rw [h])
    | isFalse h => isFalse (fun he => h (by cases he; rfl))
  | .lst a, .lst b =>
    match Term.decEqList a b with
    | isTrue h => isTrue (by rw [h])
    | isFalse h => isFalse (fun he => h (by cases he; rfl))
  | .pyNone, .pyNone => isTrue rfl
  | .str _, .tup _ => isFalse (fun h => Term.noConfusion h)
  | .str _, .lst _ => isFalse (fun h => Term.noConfusion h)
  | .str _, .pyNone => isFalse (fun h => Term.noConfusion h)
  | .tup _, .str _ => isFalse (fun h => Term.noConfusion h)
  | .tup _, .lst _ => isFalse (fun h => Term.noConfusion h)
  | .tup _, .pyNone => isFalse (fun h => Term.noConfusion h)
  | .lst _, .str _ => isFalse (fun h => Term.noConfusion h)
  | .lst _, .tup _ => isFalse (fun h => Term.noConfusion h)
  | .lst _, .pyNone => isFalse (fun h => Term.noConfusion h)
  | .pyNone, .str _ => isFalse (fun h => Term.noConfusion h)
  | .pyNone, .tup _ => isFalse (fun h => Term.noConfusion h)
  | .pyNone, .lst _ => isFalse (fun h => Term.noConfusion h)

def Term.decEqList : (a b : List Term) → Decidable (a = b)
  | [], [] => isTrue rfl
  | [], _ :: _ => isFalse (fun h => List.noConfusion h)
  | _ :: _, [] => isFalse (fun h => List.noConfusion h)
  | x :: xs, y :: ys =>
    match Term.decEq x y, Term.decEqList xs ys with
    | isTrue h1, isTrue h2 => isTrue (by rw [h1, h2])
    | isFalse h1, _ => isFalse (fun he => h1 (by cases he; rfl))
    | _, isFalse h2 => isFalse (fun he => h2 (by cases he; rfl))
end

instance : DecidableEq Term := Term.decEq

instance {α β : Type} [DecidableEq α] [DecidableEq β] : DecidableEq (Except α β) :=
  fun a b =>
    match a, b with
    | .error x, .error y =>
      if h : x = y then isTrue (by rw [h]) else isFalse (fun he => h (by cases he; rfl))
    | .ok x, .ok y =>
      if h : x = y then isTrue (by rw [h]) else isFalse (fun he => h (by cases he; rfl))
    | .error _, .ok _ => isFalse (fun h => Except.noConfusion h)
    | .ok _, .error _ => isFalse (fun h => Except.noConfusion h)

abbrev Subst := List (String × Term)

/-- First-match lookup, as in a Python dict (keys are unique there). -/
def findSub : Subst → String → Option Term
  | [], _ => none
  | (k, v) :: rest, key => if k = key then some v else findSub rest key

/-- Python `subs[k] = v` on a dict: replace an existing binding, else append. -/
def dictInsert : Subst → String → Term → Subst
  | [], k, v => [(k, v)]
  | (k', v') :: rest, k, v =>
    if k' = k then (k, v) :: rest else (k', v') :: dictInsert rest k v

/-- Model of `is_variable`: a string starting with "?" (first character is the
variable sigil; written via the character list so that the kernel can
evaluate it). -/
def is_variable : Term → Bool
  | .str s =>
    match s.data with
    | '?' :: _ => true
    | _ => false
  | _ => false

/-- The name carried by a variable term (unused on non-variables). -/
def varName : Term → String
  | .str s => s
  | _ => ""

mutual
/-- Model of `substitute(expr, subs)`: one-level replacement of strings by their
binding; descends into tuples (but not into Python lists). -/
def substitute : Term → Subst → Term
  | .str s, subs => (findSub subs s).getD (.str s)
  | .tup parts, subs => .tup (substituteList parts subs)
  | .lst parts, _ => .lst parts
  | .pyNone, _ => .pyNone

def substituteList : List Term → Subst → List Term
  | [], _ => []
  | t :: ts, subs => substitute t subs :: substituteList ts subs
end

/-- Short-circuiting `any` over a list for the fueled occurs check. -/
def occursListF (oc : Term → Option Bool) : List Term → Option Bool
  | [] => some false
  | p :: ps =>
    match oc p with
    | none => none
    | some true => some true
    | some false => occursListF oc ps

/-- Model of `occurs_check(var, value, subs)`, fueled: chases variable chains through
the substitution and searches tuple arguments. -/
def occursF : Nat → String → Term → Subst → Option Bool
  | 0, _, _, _ => none
  | n + 1, v, value, subs =>
    if Term.str v = value then some true
    else
      match value with
      | .str w =>
        if is_variable (.str w) then
          match findSub subs w with
          | some b => occursF n v b subs
          | none => some false
        else some false
      | .tup parts => occursListF (fun p => occursF n v p subs) parts
      | _ => some false

/-- Model of `is_ground(fact)`: no top-level argument is a variable.  Iterating a
Python string yields its characters; lists iterate their elements.  (The
code only calls this on tuples.) -/
def is_ground : Term → Bool
  | .tup l => l.all (fun a => !(is_variable a))
  | .lst l => l.all (fun a => !(is_variable a))
  | .str s => s.data.all (fun c => !(c = '?'))
  | .pyNone => true

/-- Python `isinstance(x, tuple)`. -/
def isTup : Term → Bool
  | .tup _ => true
  | _ => false

/-- A nonempty tuple: `isinstance(fact, tuple) and fact`. -/
def is_pred_tuple : Term → Bool
  | .tup (_ :: _) => true
  | _ => false

/-- Model of `is_exists(expr)`: a 3-tuple whose head is the string "EXISTS". -/
def is_exists : Term → Bool
  | .tup [a, _, _] => decide (a = Term.str "EXISTS")
  | _ => false

/-- Python `isinstance(x, (list, tuple))`, yielding the elements. -/
def listFromSeq : Term → Option (List Term)
  | .tup l => some l
  | .lst l => some l
  | _ => none

/-- Python `str(x)`; only exercised on strings in the verified scenarios
(non-string reprs are abstracted). -/
def pyStr : Term → String
  | .str s => s
  | .tup _ => "<tuple>"
  | .lst _ => "<list>"
  | .pyNone => "None"

mutual
/-- The spec's notion of groundness ("no Variable anywhere in its argument
tree"); used to state claims, not taken from the code. -/
def ground_deep : Term → Bool
  | .str s => !(is_variable (.str s))
  | .tup l => ground_deep_list l
  | .lst l => ground_deep_list l
  | .pyNone => true

def ground_deep_list : List Term → Bool
  | [] => true
  | t :: ts => ground_deep t && ground_deep_list ts
end

/-
Stage-4 unification (src/stage4_predicate/reasoner.py, lines 43-69).

`unify` either returns the dict object it was passed (possibly after
mutating it in `unify_var`) or `None`; the model returns the final dict
state paired with the success flag.  `zipUnifyS` is the element-wise loop
of the tuple case; all three functions consume fuel on every recursive
step so that the recursion is structural on `Nat`.
-/

/-- The tail of `unify_var`: occurs check, then bind. -/
def unifyVarOcc (oc : String → Term → Subst → Option Bool)
    (v : String) (value : Term) (subs : Subst) : Option (Subst × Bool) :=
  match oc v value subs with
  | none => none
  | some true => some (subs, false)
  | some false => some (dictInsert subs v value, true)

mutual
/-- Model of `unify(x, y, subs)` (stage4), fueled. -/
def unifyS : Nat → Term → Term → Subst → Option (Subst × Bool)
  | 0, _, _, _ => none
  | n + 1, x, y, subs =>
    if x = y then some (subs, true)
    else if is_variable x then unify_varS n (varName x) y subs
    else if is_variable y then unify_varS n (varName y) x subs
    else
      match x, y with
      | .tup xs, .tup ys =>
        if xs.length = ys.length then zipUnifyS n xs ys subs
        else some (subs, false)
      | _, _ => some (subs, false)

/-- Model of `unify_var(var, value, subs)` (stage4, lines 61-69): writes the new
binding into the dict it was handed. -/
def unify_varS : Nat → String → Term → Subst → Option (Subst × Bool)
  | 0, _, _, _ => none
  | n + 1, v, value, subs =>
    match findSub subs v with
    | some bound => unifyS n bound value subs
    | none =>
      match value with
      | .str w =>
        if is_variable (.str w) then
          match findSub subs w with
          | some b => unifyS n (.str v) b subs
          | none => unifyVarOcc (occursF (n + 1)) v value subs
        else unifyVarOcc (occursF (n + 1)) v value subs
      | _ => unifyVarOcc (occursF (n + 1)) v value subs

/-- The element-wise loop of the stage4 tuple case, threading the dict. -/
def zipUnifyS : Nat → List Term → List Term → Subst → Option (Subst × Bool)
  | 0, _, _, _ => none
  | _ + 1, [], [], subs => some (subs, true)
  | n + 1, x :: xs, y :: ys, subs =>
    match unifyS n x y subs with
    | none => none
    | some (s, false) => some (s, false)
    | some (s, true) => zipUnifyS n xs ys s
  | _ + 1, _, _, subs => some (subs, false)
end

/-
Quiz unification (src/reasoner_quiz/stage4_predicate/reasoner.py,
lines 43-87).  This version never mutates the dict it receives
(`unify_var` copies before writing), so it is modelled as a pure function:
`some none` is Python `None` (no match), `some (some s)` a returned dict,
and the outer `none` is fuel exhaustion.
-/

def qVarOcc (oc : String → Term → Subst → Option Bool)
    (v : String) (value : Term) (subs : Subst) : Option (Option Subst) :=
  match oc v value subs with
  | none => none
  | some true => some none
  | some false => some (some (dictInsert subs v value))

mutual
/-- Model of `unify(x, y, subs)` (quiz), fueled: resolves both sides one level
through `subs` before dispatching. -/
def qunify : Nat → Term → Term → Subst → Option (Option Subst)
  | 0, _, _, _ => none
  | n + 1, x, y, subs =>
    let ta := substitute x subs
    let tb := substitute y subs
    if ta = tb then some (some subs)
    else if is_variable ta then qunify_varS n (varName ta) tb subs
    else if is_variable tb then qunify_varS n (varName tb) ta subs
    else
      match ta, tb with
      | .tup l1, .tup l2 =>
        if l1.length = l2.length then qzipS n l1 l2 subs
        else some none
      | _, _ => some none

/-- Model of `unify_var(var, value, subs)` (quiz, lines 74-87): returns a fresh
extended copy, leaving the argument dict untouched. -/
def qunify_varS : Nat → String → Term → Subst → Option (Option Subst)
  | 0, _, _, _ => none
  | n + 1, v, value, subs =>
    match findSub subs v with
    | some bound => qunify n bound value subs
    | none =>
      match value with
      | .str w =>
        if is_variable (.str w) then
          match findSub subs w with
          | some b => qunify n (.str v) b subs
          | none => qVarOcc (occursF (n + 1)) v value subs
        else qVarOcc (occursF (n + 1)) v value subs
      | _ => qVarOcc (occursF (n + 1)) v value subs

/-- The element-wise loop of the quiz tuple case over the resolved parts. -/
def qzipS : Nat → List Term → List Term → Subst → Option (Option Subst)
  | 0, _, _, _ => none
  | _ + 1, [], [], subs => some (some subs)
  | n + 1, x :: xs, y :: ys, subs =>
    match qunify n x y subs with
    | none => none
    | some none => some none
    | some (some s) => qzipS n xs ys s
  | _ + 1, _, _, _ => some none
end

/-
Rules and knowledge bases.  `Rule` is the dataclass shared by both files.
`RuleExpr` models the `add_rule` argument, which may be an already-built
`Rule` instance or a raw quantified expression.
-/

structure Rule where
  varNames : List String
  premises : List Term
  conclusion : Term

instance : DecidableEq Rule := fun a b =>
  match a, b with
  | Rule.mk v1 p1 c1, Rule.mk v2 p2 c2 =>
    if h : v1 = v2 ∧ p1 = p2 ∧ c1 = c2 then
      isTrue (by obtain ⟨e1, e2, e3⟩ := h; rw [e1, e2, e3])
    else
      isFalse (fun he => h (by cases he; exact ⟨rfl, rfl, rfl⟩))

inductive RuleExpr where
  | rule : Rule → RuleExpr
  | raw : Term → RuleExpr

structure S4KB where
  facts : List Term
  rules : List Rule
  exist_counter : Nat

instance : DecidableEq S4KB := fun a b =>
  match a, b with
  | S4KB.mk f1 r1 c1, S4KB.mk f2 r2 c2 =>
    if h : f1 = f2 ∧ r1 = r2 ∧ c1 = c2 then
      isTrue (by obtain ⟨e1, e2, e3⟩ := h; rw [e1, e2, e3])
    else
      isFalse (fun he => h (by cases he; exact ⟨rfl, rfl, rfl⟩))

structure QKB where
  facts : List Term
  rules : List Rule
  exist_counter : Nat

instance : DecidableEq QKB := fun a b =>
  match a, b with
  | QKB.mk f1 r1 c1, QKB.mk f2 r2 c2 =>
    if h : f1 = f2 ∧ r1 = r2 ∧ c1 = c2 then
      isTrue (by obtain ⟨e1, e2, e3⟩ := h; rw [e1, e2, e3])
    else
      isFalse (fun he => h (by cases he; exact ⟨rfl, rfl, rfl⟩))

/-
Stage-4 KB operations (src/stage4_predicate/reasoner.py, lines 87-210).
Python raising is modelled by returning the (unchanged, unless noted)
state together with `Except.error msg`.
-/

/-- Model of `add_fact` (stage4, lines 101-109): validates shape and groundness,
then inserts unless already present.  Raising leaves the state unchanged. -/
def S4_add_fact (kb : S4KB) (fact : Term) : S4KB × Except String Bool :=
  if is_pred_tuple fact = false then
    (kb, .error "Facts must be predicate tuples")
  else if is_ground fact = false then
    (kb, .error "Facts must be ground (no free variables)")
  else if fact ∈ kb.facts then (kb, .ok false)
  else (S4KB.mk (kb.facts ++ [fact]) kb.rules kb.exist_counter, .ok true)

/-- Model of `_normalize_premises` (stage4, lines 196-210). -/
def S4_normalize_premises (raw : Term) : Except String (List Term) :=
  match raw with
  | .pyNone => .ok []
  | _ =>
    let parts : List Term :=
      match raw with
      | .tup (h :: rest) =>
        if h = Term.str "AND" then rest
        else if isTup h then h :: rest
        else [raw]
      | .lst (h :: rest) => if isTup h then h :: rest else [raw]
      | _ => [raw]
    if parts.all is_pred_tuple then .ok parts
    else .error "Premises must be predicate tuples"

/-- Model of `_parse_rule` (stage4, lines 172-194). -/
def S4_parse_rule (expr : Term) : Except String Rule :=
  match expr with
  | .tup [t0, vars_part, implies_part] =>
    if t0 = Term.str "FORALL" then
      match listFromSeq vars_part with
      | none => .error "Quantified variables must be a list or tuple"
      | some vlist =>
        match implies_part with
        | .tup [i0, raw_premises, conclusion] =>
          if i0 = Term.str "IMPLIES" then
            match S4_normalize_premises raw_premises with
            | .error e => .error e
            | .ok premises => .ok (Rule.mk (vlist.map pyStr) premises conclusion)
          else .error "Body must be an IMPLIES tuple"
        | _ => .error "Body must be an IMPLIES tuple"
    else .error "Rules must be encoded as FORALL/IMPLIES"
  | _ => .error "Rules must be encoded as FORALL/IMPLIES"

/-- Model of `add_rule` (stage4, lines 111-116). -/
def S4_add_rule (kb : S4KB) (e : RuleExpr) : S4KB × Except String Unit :=
  match e with
  | .rule r => (S4KB.mk kb.facts (kb.rules ++ [r]) kb.exist_counter, .ok ())
  | .raw t =>
    match S4_parse_rule t with
    | .error m => (kb, .error m)
    | .ok r => (S4KB.mk kb.facts (kb.rules ++ [r]) kb.exist_counter, .ok ())

/-- The minting loop of `_instantiate_exists` (stage4, lines 162-169):
validates each existential variable and binds it to a fresh `_skN`
constant; the counter is incremented before use (`_sk1` first).  A raise
mid-loop keeps the counter increments already performed. -/
def S4_mint (kb : S4KB) (vl : List Term) (acc : Subst) : S4KB × Except String Subst :=
  match vl with
  | [] => (kb, .ok acc)
  | v :: rest =>
    match v with
    | .str s =>
      if is_variable (.str s) then
        let c := kb.exist_counter + 1
        S4_mint (S4KB.mk kb.facts kb.rules c) rest
          (dictInsert acc s (Term.str ("_sk" ++ toString c)))
      else (kb, .error "Existential variables must be strings starting with ?")
    | _ => (kb, .error "Existential variables must be strings starting with ?")

/-- Model of `_instantiate_exists` (stage4, lines 158-170). -/
def S4_instantiate_exists (kb : S4KB) (expr : Term) : S4KB × Except String Term :=
  match expr with
  | .tup [_, vars, body] =>
    match listFromSeq vars with
    | none => (kb, .error "Existential quantifier expects iterable of variables")
    | some vlist =>
      match S4_mint kb vlist [] with
      | (kb', .error e) => (kb', .error e)
      | (kb', .ok subs) => (kb', .ok (substitute body subs))
  | _ => (kb, .error "ValueError: not enough values to unpack")

/-
`_satisfying_substitutions` (stage4, lines 145-156).  The Python generator
iterates over the live `self.facts` set; up to the first successful
`add_fact` no mutation has happened, so enumerating the solutions eagerly
over the facts as they stood when the rule's search began is faithful for
every solution the Python code ever consumes (see `S4_run_sols` for what
happens at the first mutation).
-/

mutual
/-- All substitutions yielded by `backtrack(0, {})`, in generator order.
The premise-level and candidate-fact recursions also consume fuel so that
the recursion is structural. -/
def S4_solutions : Nat → List Term → List Term → Subst → Option (List Subst)
  | 0, _, _, _ => none
  | _ + 1, _, [], θ => some [θ]
  | fuel + 1, facts, p :: ps, θ =>
    S4_solutions_facts fuel facts ps (substitute p θ) θ facts

/-- The per-fact loop of one `backtrack` level: unify the goal against each
candidate fact, recursing into the next premise level on success. -/
def S4_solutions_facts : Nat → List Term → List Term → Term → Subst →
    List Term → Option (List Subst)
  | 0, _, _, _, _, _ => none
  | _ + 1, _, _, _, _, [] => some []
  | fuel + 1, facts, ps, goal, θ, f :: fs =>
    match unifyS (fuel + 1) goal f θ with
    | none => none
    | some (_, false) => S4_solutions_facts fuel facts ps goal θ fs
    | some (θ', true) =>
      match S4_solutions fuel facts ps θ' with
      | none => none
      | some sols1 =>
        match S4_solutions_facts fuel facts ps goal θ fs with
        | none => none
        | some sols2 => some (sols1 ++ sols2)
end

/-
`forward_chain` (stage4, lines 118-135).

The Python inner loop consumes the generator lazily while `add_fact`
mutates the very set the generator is iterating: CPython raises
`RuntimeError: Set changed size during iteration` at the first resumption
of a pending set iterator after the set's size changed.  For a rule with a
nonempty premise list the generator always holds such an iterator when it
yields, so the first newly added fact aborts `forward_chain` with that
error (the fact itself stays added, as does any Skolem-counter change).  A
rule with no premises yields its single solution without ever creating a
set iterator, so it is immune.  `S4Out` is the outcome of handling one
substitution.
-/

inductive S4Out where
  | cont : S4Out
  | added : S4Out
  | raised : String → S4Out

instance : DecidableEq S4Out := fun a b =>
  match a, b with
  | .cont, .cont => isTrue rfl
  | .added, .added => isTrue rfl
  | .raised x, .raised y =>
    if h : x = y then isTrue (by rw [h]) else isFalse (fun he => h (by cases he; rfl))
  | .cont, .added => isFalse (fun h => S4Out.noConfusion h)
  | .cont, .raised _ => isFalse (fun h => S4Out.noConfusion h)
  | .added, .cont => isFalse (fun h => S4Out.noConfusion h)
  | .added, .raised _ => isFalse (fun h => S4Out.noConfusion h)
  | .raised _, .cont => isFalse (fun h => S4Out.noConfusion h)
  | .raised _, .added => isFalse (fun h => S4Out.noConfusion h)

/-- Lines 128-133 of stage4 `forward_chain`: skip non-tuple or non-ground
conclusions silently, otherwise try `add_fact`. -/
def S4_try_add (kb : S4KB) (fact : Term) : S4KB × S4Out :=
  match fact with
  | .tup _ =>
    if is_ground fact then
      match S4_add_fact kb fact with
      | (kb', .ok true) => (kb', .added)
      | (kb', .ok false) => (kb', .cont)
      | (kb', .error e) => (kb', .raised e)
    else (kb, .cont)
  | _ => (kb, .cont)

/-- Handling of one satisfying substitution (stage4 `forward_chain` body,
lines 123-133). -/
def S4_apply_sub (kb : S4KB) (rule : Rule) (θ : Subst) : S4KB × S4Out :=
  let conclusion := substitute rule.conclusion θ
  if is_exists conclusion then
    match S4_instantiate_exists kb conclusion with
    | (kb', .ok fact) => S4_try_add kb' fact
    | (kb', .error e) => (kb', .raised e)
  else S4_try_add kb conclusion

/-- Processes the enumerated substitutions of one rule in order.  The first
newly added fact raises the set-mutation `RuntimeError` when the rule has
premises (a pending set iterator is resumed); with no premises the
generator is already exhausted and iteration continues. -/
def S4_run_sols (kb : S4KB) (rule : Rule) (hasPrem : Bool) (added : Bool) :
    List Subst → S4KB × Bool × Option String
  | [] => (kb, added, none)
  | θ :: rest =>
    match S4_apply_sub kb rule θ with
    | (kb', .cont) => S4_run_sols kb' rule hasPrem added rest
    | (kb', .raised e) => (kb', added, some e)
    | (kb', .added) =>
      if hasPrem then
        (kb', true, some "RuntimeError: Set changed size during iteration")
      else S4_run_sols kb' rule hasPrem true rest

/-- One pass of stage4 `forward_chain` over the rule list. -/
def S4_run_rules (fuel : Nat) (kb : S4KB) (added : Bool) :
    List Rule → Option (S4KB × Bool × Option String)
  | [] => some (kb, added, none)
  | r :: rs =>
    match S4_solutions fuel kb.facts r.premises [] with
    | none => none
    | some sols =>
      match S4_run_sols kb r (!r.premises.isEmpty) added sols with
      | (kb', added', some e) => some (kb', added', some e)
      | (kb', added', none) => S4_run_rules fuel kb' added' rs

/-- Model of `forward_chain(max_iterations)` (stage4): returns the final KB state
and `some msg` when the Python call raised. -/
def S4_forward_chain (fuel : Nat) (kb : S4KB) : Nat → Option (S4KB × Option String)
  | 0 => some (kb, none)
  | n + 1 =>
    match S4_run_rules fuel kb false kb.rules with
    | none => none
    | some (kb', _, some e) => some (kb', some e)
    | some (kb', true, none) => S4_forward_chain fuel kb' n
    | some (kb', false, none) => some (kb', none)

/-- Model of `query(pattern)` (stage4, lines 137-143): one fresh `{}` per fact. -/
def S4_query_facts (fuel : Nat) (pattern : Term) : List Term → Option (List Subst)
  | [] => some []
  | f :: fs =>
    match unifyS fuel pattern f [] with
    | none => none
    | some (_, false) => S4_query_facts fuel pattern fs
    | some (θ, true) =>
      match S4_query_facts fuel pattern fs with
      | none => none
      | some rest => some (θ :: rest)

def S4_query (fuel : Nat) (kb : S4KB) (pattern : Term) : Option (List Subst) :=
  S4_query_facts fuel pattern kb.facts

/-- Model of `KB(facts, rules)` (stage4 `__init__`): adds every fact, then every
rule; a raise propagates out of the constructor. -/
def S4_init (facts : List Term) (rules : List RuleExpr) : Except String S4KB :=
  let rec addFacts (kb : S4KB) : List Term → Except String S4KB
    | [] => .ok kb
    | f :: fs =>
      match S4_add_fact kb f with
      | (kb', .ok _) => addFacts kb' fs
      | (_, .error e) => .error e
  let rec addRules (kb : S4KB) : List RuleExpr → Except String S4KB
    | [] => .ok kb
    | r :: rs =>
      match S4_add_rule kb r with
      | (kb', .ok _) => addRules kb' rs
      | (_, .error e) => .error e
  match addFacts (S4KB.mk [] [] 0) facts with
  | .error e => .error e
  | .ok kb1 => addRules kb1 rules

/-
Quiz KB operations (src/reasoner_quiz/stage4_predicate/reasoner.py,
lines 105-224).  `add_fact` performs NO validation there.
-/

/-- Model of `add_fact` (quiz, lines 123-127): membership test and insert only. -/
def Q_add_fact (kb : QKB) (fact : Term) : QKB × Bool :=
  if fact ∈ kb.facts then (kb, false)
  else (QKB.mk (kb.facts ++ [fact]) kb.rules kb.exist_counter, true)

/-- Model of `_normalize_premises` (quiz, lines 216-222): a list is taken as-is, an
`AND` tuple contributes exactly its second and third elements (IndexError
when too short), anything else is wrapped. -/
def Q_normalize_premises (raw : Term) : Except String (List Term) :=
  match raw with
  | .lst l => .ok l
  | .tup [] => .error "IndexError: tuple index out of range"
  | .tup (h :: rest) =>
    if h = Term.str "AND" then
      match rest with
      | a :: b :: _ => .ok [a, b]
      | _ => .error "IndexError: tuple index out of range"
    else .ok [raw]
  | _ => .ok [raw]

/-- Python iteration for `tuple(expr[1])` in the quiz `_parse_rule`:
iterating a string yields its characters. -/
def pyIter : Term → Except String (List Term)
  | .tup l => .ok l
  | .lst l => .ok l
  | .str s => .ok (s.data.map (fun c => Term.str (String.mk [c])))
  | .pyNone => .error "TypeError: NoneType is not iterable"

/-- Model of `_parse_rule` (quiz, lines 198-214).  Falling off the end of the Python
function returns `None`, which would poison the rule list and crash later;
that path is modelled as an error (never exercised by the claims). -/
def Q_parse_rule (expr : Term) : Except String Rule :=
  match expr with
  | .tup (t0 :: rest) =>
    if t0 = Term.str "FORALL" then
      match rest with
      | vars_part :: body :: _ =>
        match pyIter vars_part with
        | .error e => .error e
        | .ok vlist =>
          match body with
          | .tup [] => .error "IndexError: tuple index out of range"
          | .tup (b0 :: brest) =>
            if b0 = Term.str "IMPLIES" then
              match brest with
              | braw :: bconc :: _ =>
                match Q_normalize_premises braw with
                | .error e => .error e
                | .ok prems => .ok (Rule.mk (vlist.map pyStr) prems bconc)
              | _ => .error "IndexError: tuple index out of range"
            else
              match b0, brest with
              | .lst pl, [bconc] =>
                match Q_normalize_premises (.lst pl) with
                | .error e => .error e
                | .ok prems => .ok (Rule.mk (vlist.map pyStr) prems bconc)
              | _, _ => .error "ValueError: Invalid rule format"
          | _ => .error "ValueError: Invalid rule format"
      | _ => .error "IndexError: tuple index out of range"
    else .error "parse returned None"
  | _ => .error "parse returned None"

/-- Model of `add_rule` (quiz, lines 129-131). -/
def Q_add_rule (kb : QKB) (e : RuleExpr) : QKB × Except String Unit :=
  match e with
  | .rule r => (QKB.mk kb.facts (kb.rules ++ [r]) kb.exist_counter, .ok ())
  | .raw t =>
    match Q_parse_rule t with
    | .error m => (kb, .error m)
    | .ok r => (QKB.mk kb.facts (kb.rules ++ [r]) kb.exist_counter, .ok ())

/-- Model of `query(pattern)` (quiz, lines 157-164): `unify(pattern, fact)` with the
default empty substitution. -/
def Q_query_facts (fuel : Nat) (pattern : Term) : List Term → Option (List Subst)
  | [] => some []
  | f :: fs =>
    match qunify fuel pattern f [] with
    | none => none
    | some none => Q_query_facts fuel pattern fs
    | some (some θ) =>
      match Q_query_facts fuel pattern fs with
      | none => none
      | some rest => some (θ :: rest)

def Q_query (fuel : Nat) (kb : QKB) (pattern : Term) : Option (List Subst) :=
  Q_query_facts fuel pattern kb.facts

/-- The minting loop of `_instantiate_exists` (quiz, lines 192-195): uses
the counter before incrementing (`_sk0` first), no validation. -/
def Q_mint (counter : Nat) (vl : List Term) (acc : Subst) : Nat × Subst :=
  match vl with
  | [] => (counter, acc)
  | v :: rest =>
    Q_mint (counter + 1) rest
      (dictInsert acc (pyStr v) (Term.str ("_sk" ++ toString counter)))

/-- Model of `_instantiate_exists` (quiz, lines 183-197): a bare string variable is
wrapped in a singleton list; the `None` TypeError path is unreachable from
`forward_chain` (the argument is always an EXISTS 3-tuple). -/
def Q_instantiate_exists (kb : QKB) (expr : Term) : QKB × Term :=
  match expr with
  | .tup [_, vars, body] =>
    let names : List Term :=
      match vars with
      | .str s => [.str s]
      | .tup l => l
      | .lst l => l
      | .pyNone => []
    match Q_mint kb.exist_counter names [] with
    | (c', skmap) => (QKB.mk kb.facts kb.rules c', substitute body skmap)
  | _ => (kb, expr)

/-- The `forward_chain` body for one yielded substitution (quiz, lines
139-152): the existential-redundancy check queries the CURRENT facts with
the substituted (un-Skolemized) body pattern and skips when any fact
matches. -/
def Q_process (fuel : Nat) (kb : QKB) (rule : Rule) (θ : Subst) (flag : Bool) :
    Option (QKB × Bool) :=
  let c := rule.conclusion
  if is_exists c then
    match c with
    | .tup [_, _, body] =>
      match Q_query fuel kb (substitute body θ) with
      | none => none
      | some (_ :: _) => some (kb, flag)
      | some [] =>
        match Q_instantiate_exists kb (substitute c θ) with
        | (kb1, fact) =>
          match Q_add_fact kb1 fact with
          | (kb2, b) => some (kb2, flag || b)
    | _ => some (kb, flag)
  else
    match Q_add_fact kb (substitute c θ) with
    | (kb2, b) => some (kb2, flag || b)

/-
`_satisfying_substitutions` (quiz, lines 166-181) interleaved with the
`forward_chain` consumer (lines 133-155).  Each recursion level of
`dfs_search` copies `list(self.facts)` when it starts, and the consumer
adds facts between yields, so deeper levels entered later see facts added
earlier in the same iteration.  The direct-style functions below thread the
KB through the leaves (`Q_process`) exactly as the lazy generator does:
`Q_explore` enters one premise level and takes its snapshot, and
`Q_explore_facts` walks that fixed snapshot while the KB evolves.
-/

mutual
/-- Entering one `dfs_search` level (`Q_explore`): it computes the level's goal
and takes the level's snapshot of the current facts. -/
def Q_explore : Nat → Rule → List Term → Subst → QKB → Bool → Option (QKB × Bool)
  | 0, _, _, _, _, _ => none
  | fuel + 1, rule, [], θ, kb, flag => Q_process (fuel + 1) kb rule θ flag
  | fuel + 1, rule, p :: ps, θ, kb, flag =>
    Q_explore_facts fuel rule ps (substitute p θ) θ kb.facts kb flag

/-- One `dfs_search` level walking its fixed snapshot while the KB evolves
underneath (facts added at the leaves are threaded through `kb`). -/
def Q_explore_facts : Nat → Rule → List Term → Term → Subst → List Term →
    QKB → Bool → Option (QKB × Bool)
  | 0, _, _, _, _, _, _, _ => none
  | _ + 1, _, _, _, _, [], kb, flag => some (kb, flag)
  | fuel + 1, rule, ps, goal, θ, f :: fs, kb, flag =>
    match qunify (fuel + 1) goal f θ with
    | none => none
    | some none => Q_explore_facts fuel rule ps goal θ fs kb flag
    | some (some θ') =>
      match Q_explore fuel rule ps θ' kb flag with
      | none => none
      | some (kb', flag') => Q_explore_facts fuel rule ps goal θ fs kb' flag'
end

/-- One pass of quiz `forward_chain` over the rule list. -/
def Q_pass (fuel : Nat) : QKB → List Rule → Bool → Option (QKB × Bool)
  | kb, [], flag => some (kb, flag)
  | kb, r :: rs, flag =>
    match Q_explore fuel r r.premises [] kb flag with
    | none => none
    | some (kb', flag') => Q_pass fuel kb' rs flag'

/-- Model of `forward_chain(max_iterations)` (quiz): stops after a pass that adds
nothing, or when the iteration budget runs out. -/
def Q_forward_chain (fuel : Nat) (kb : QKB) : Nat → Option QKB
  | 0 => some kb
  | n + 1 =>
    match Q_pass fuel kb kb.rules false with
    | none => none
    | some (kb', false) => some kb'
    | some (kb', true) => Q_forward_chain fuel kb' n

/-- Model of `KB(facts, rules)` (quiz `__init__`). -/
def Q_init (facts : List Term) (rules : List RuleExpr) : Except String QKB :=
  let rec addFacts (kb : QKB) : List Term → QKB
    | [] => kb
    | f :: fs => addFacts (Q_add_fact kb f).1 fs
  let rec addRules (kb : QKB) : List RuleExpr → Except String QKB
    | [] => .ok kb
    | r :: rs =>
      match Q_add_rule kb r with
      | (kb', .ok _) => addRules kb' rs
      | (_, .error e) => .error e
  addRules (addFacts (QKB.mk [] [] 0) facts) rules

/-
Concrete scenario data used by the claims (spec §8).
-/

def t_parent_ab : Term := .tup [.str "parent", .str "alice", .str "bob"]
def t_parent_bc : Term := .tup [.str "parent", .str "bob", .str "carol"]
def t_anc_ab : Term := .tup [.str "ancestor", .str "alice", .str "bob"]
def t_anc_bc : Term := .tup [.str "ancestor", .str "bob", .str "carol"]
def t_anc_ac : Term := .tup [.str "ancestor", .str "alice", .str "carol"]

/-- Rule `FORALL(["?x","?y"], IMPLIES(parent(?x,?y), ancestor(?x,?y)))`. -/
def rule1_raw : Term :=
  .tup [.str "FORALL", .lst [.str "?x", .str "?y"],
    .tup [.str "IMPLIES",
      .tup [.str "parent", .str "?x", .str "?y"],
      .tup [.str "ancestor", .str "?x", .str "?y"]]]

/-- Rule `FORALL(["?x","?y","?z"], IMPLIES(AND(parent(?x,?y), ancestor(?y,?z)), ancestor(?x,?z)))`. -/
def rule2_raw : Term :=
  .tup [.str "FORALL", .lst [.str "?x", .str "?y", .str "?z"],
    .tup [.str "IMPLIES",
      .tup [.str "AND",
        .tup [.str "parent", .str "?x", .str "?y"],
        .tup [.str "ancestor", .str "?y", .str "?z"]],
      .tup [.str "ancestor", .str "?x", .str "?z"]]]

def rule1 : Rule :=
  Rule.mk ["?x", "?y"]
    [.tup [.str "parent", .str "?x", .str "?y"]]
    (.tup [.str "ancestor", .str "?x", .str "?y"])

def rule2 : Rule :=
  Rule.mk ["?x", "?y", "?z"]
    [.tup [.str "parent", .str "?x", .str "?y"],
     .tup [.str "ancestor", .str "?y", .str "?z"]]
    (.tup [.str "ancestor", .str "?x", .str "?z"])

/-- The existential scenario: `person(mary)` with
`FORALL(["?x"], IMPLIES(person(?x), EXISTS(["?z"], mother(?z,?x))))`. -/
def t_person_mary : Term := .tup [.str "person", .str "mary"]

def rule_ex_raw : Term :=
  .tup [.str "FORALL", .lst [.str "?x"],
    .tup [.str "IMPLIES",
      .tup [.str "person", .str "?x"],
      .tup [.str "EXISTS", .lst [.str "?z"],
        .tup [.str "mother", .str "?z", .str "?x"]]]]

def rule_ex : Rule :=
  Rule.mk ["?x"]
    [.tup [.str "person", .str "?x"]]
    (.tup [.str "EXISTS", .lst [.str "?z"],
      .tup [.str "mother", .str "?z", .str "?x"]])

/-- The same-iteration-visibility scenario: `p(a)` with `p(?x) -> q(?x)`
and `q(?x) -> r(?x)`. -/
def t_p_a : Term := .tup [.str "p", .str "a"]
def t_q_a : Term := .tup [.str "q", .str "a"]
def t_r_a : Term := .tup [.str "r", .str "a"]

def rule_pq : Rule :=
  Rule.mk ["?x"] [.tup [.str "p", .str "?x"]] (.tup [.str "q", .str "?x"])

def rule_qr : Rule :=
  Rule.mk ["?x"] [.tup [.str "q", .str "?x"]] (.tup [.str "r", .str "?x"])

/-- Rules for the skipped-derivation scenario: a non-tuple conclusion, an
unground conclusion (`?y` occurs in no premise), and a conclusion that is
already a stored fact. -/
def rule_skip_str : Rule :=
  Rule.mk ["?x"] [.tup [.str "p", .str "?x"]] (.str "c")

def rule_skip_unground : Rule :=
  Rule.mk ["?x", "?y"] [.tup [.str "p", .str "?x"]]
    (.tup [.str "q", .str "?x", .str "?y"])

def rule_dup : Rule :=
  Rule.mk ["?x"] [.tup [.str "p", .str "?x"]] (.tup [.str "p", .str "?x"])

/-- A rule concluding an EXISTS whose variable slot is a bare string: the
substituted instance is a tuple failing `is_ground` (its second element is
the variable "?z"), and stage4's `_instantiate_exists` raises a ValueError
on it instead of skipping. -/
def rule_ex_badvars : Rule :=
  Rule.mk ["?x"] [.tup [.str "p", .str "?x"]]
    (.tup [.str "EXISTS", .str "?z", .tup [.str "m", .str "?z", .str "?x"]])

/-- A rule with a well-formed EXISTS conclusion whose skolemized body stays
unground (`?y` occurs in no premise): the post-skolemization fact is
skipped silently, though the Skolem counter advances. -/
def rule_ex_unground : Rule :=
  Rule.mk ["?x", "?y"] [.tup [.str "p", .str "?x"]]
    (.tup [.str "EXISTS", .lst [.str "?z"], .tup [.str "m", .str "?z", .str "?y"]])

/-
Lemmas about substitutions and unification.  `SubExt s s'` says every
binding of `s` survives into `s'` (stage4's `unify_var` never rebinds an
existing variable, it only inserts fresh ones, and the quiz version copies
then inserts).  `Idem s` is idempotency: every bound value is left fixed by
one further application of `s`.
-/

def SubExt (s s' : Subst) : Prop :=
  ∀ v t, findSub s v = some t → findSub s' v = some t

def Idem (s : Subst) : Prop :=
  ∀ v t, findSub s v = some t → substitute t s = t

theorem SubExt_refl (s : Subst) : SubExt s s := fun _ _ h => h

theorem SubExt_trans {s1 s2 s3 : Subst} (h1 : SubExt s1 s2) (h2 : SubExt s2 s3) :
    SubExt s1 s3 := fun v t h => h2 v t (h1 v t h)

theorem findSub_dictInsert_self (s : Subst) (v : String) (t : Term) :
    findSub (dictInsert s v t) v = some t := by
  induction s with
  | nil => simp [dictInsert, findSub]
  | cons p rest ih =>
    obtain ⟨k, u⟩ := p
    by_cases hk : k = v
    · subst hk; simp [dictInsert, findSub]
    · simp [dictInsert, findSub, hk, ih]

theorem findSub_dictInsert_other (s : Subst) (v w : String) (t : Term)
    (hw : w ≠ v) : findSub (dictInsert s v t) w = findSub s w := by
  have hvw : ¬ (v = w) := fun h => hw h.symm
  induction s with
  | nil => simp [dictInsert, findSub, hvw]
  | cons p rest ih =>
    obtain ⟨k, u⟩ := p
    by_cases hk : k = v
    · subst hk
      simp [dictInsert, findSub, hvw]
    · simp only [dictInsert, if_neg hk, findSub]
      by_cases hkw : k = w
      · simp [hkw]
      · simp [hkw, ih]

theorem SubExt_dictInsert {s : Subst} {v : String} {t : Term}
    (h : findSub s v = none) : SubExt s (dictInsert s v t) := by
  intro w u hw
  by_cases hvw : w = v
  · subst hvw; rw [hw] at h; cases h
  · rw [findSub_dictInsert_other s v w t hvw]; exact hw

theorem unifyVarOcc_ext {oc : String → Term → Subst → Option Bool}
    {v : String} {value : Term} {s : Subst} {r : Subst × Bool}
    (hv : findSub s v = none) (h : unifyVarOcc oc v value s = some r) :
    SubExt s r.1 := by
  unfold unifyVarOcc at h
  cases hoc : oc v value s with
  | none => rw [hoc] at h; cases h
  | some b =>
    rw [hoc] at h
    cases b
    · cases h; exact SubExt_dictInsert hv
    · cases h; exact SubExt_refl s

theorem qVarOcc_ext {oc : String → Term → Subst → Option Bool}
    {v : String} {value : Term} {s s' : Subst}
    (hv : findSub s v = none) (h : qVarOcc oc v value s = some (some s')) :
    SubExt s s' := by
  unfold qVarOcc at h
  cases hoc : oc v value s with
  | none => rw [hoc] at h; cases h
  | some b =>
    rw [hoc] at h
    cases b
    · cases h; exact SubExt_dictInsert hv
    · cases h

/-- Every result of stage4 unification (success or failure) extends the
dictionary it started from: bindings are only ever added, never removed or
rewritten. -/
theorem unify_ext_all : ∀ n : Nat,
    (∀ x y s r, unifyS n x y s = some r → SubExt s r.1) ∧
    (∀ v value s r, unify_varS n v value s = some r → SubExt s r.1) ∧
    (∀ xs ys s r, zipUnifyS n xs ys s = some r → SubExt s r.1) := by
  intro n
  induction n with
  | zero =>
    refine ⟨?_, ?_, ?_⟩ <;> intro a b c r h <;>
      simp [unifyS, unify_varS, zipUnifyS] at h
  | succ n ih =>
    obtain ⟨ihu, ihv, ihz⟩ := ih
    refine ⟨?_, ?_, ?_⟩
    · intro x y s r h
      simp only [unifyS] at h
      by_cases hxy : x = y
      · rw [if_pos hxy] at h; cases h; exact SubExt_refl s
      · rw [if_neg hxy] at h
        by_cases hvx : is_variable x = true
        · rw [if_pos hvx] at h; exact ihv _ _ _ _ h
        · rw [if_neg hvx] at h
          by_cases hvy : is_variable y = true
          · rw [if_pos hvy] at h; exact ihv _ _ _ _ h
          · rw [if_neg hvy] at h
            cases x <;> cases y <;> try (cases h; exact SubExt_refl s)
            rename_i xs ys
            simp only at h
            by_cases hl : xs.length = ys.length
            · rw [if_pos hl] at h; exact ihz _ _ _ _ h
            · rw [if_neg hl] at h; cases h; exact SubExt_refl s
    · intro v value s r h
      cases hb : findSub s v with
      | some bound =>
        simp only [unify_varS, hb] at h
        exact ihu _ _ _ _ h
      | none =>
        simp only [unify_varS, hb] at h
        cases value with
        | str w =>
          simp only at h
          by_cases hw : is_variable (.str w) = true
          · rw [if_pos hw] at h
            cases hbw : findSub s w with
            | some b => simp only [hbw] at h; exact ihu _ _ _ _ h
            | none => simp only [hbw] at h; exact unifyVarOcc_ext hb h
          · rw [if_neg hw] at h
            exact unifyVarOcc_ext hb h
        | tup l => exact unifyVarOcc_ext hb h
        | lst l => exact unifyVarOcc_ext hb h
        | pyNone => exact unifyVarOcc_ext hb h
    · intro xs ys s r h
      cases xs with
      | nil =>
        cases ys with
        | nil => simp only [zipUnifyS] at h; cases h; exact SubExt_refl s
        | cons y ys => simp only [zipUnifyS] at h; cases h; exact SubExt_refl s
      | cons x xs =>
        cases ys with
        | nil => simp only [zipUnifyS] at h; cases h; exact SubExt_refl s
        | cons y ys =>
          simp only [zipUnifyS] at h
          cases hu : unifyS n x y s with
          | none => rw [hu] at h; exact Option.noConfusion h
          | some p =>
            obtain ⟨s1, b⟩ := p
            cases b
            · rw [hu] at h; cases h; exact ihu _ _ _ _ hu
            · rw [hu] at h
              exact SubExt_trans (ihu _ _ _ _ hu) (ihz _ _ _ _ h)

/-- Quiz unification also only extends the substitution on success. -/
theorem qunify_ext_all : ∀ n : Nat,
    (∀ x y s s', qunify n x y s = some (some s') → SubExt s s') ∧
    (∀ v value s s', qunify_varS n v value s = some (some s') → SubExt s s') ∧
    (∀ xs ys s s', qzipS n xs ys s = some (some s') → SubExt s s') := by
  intro n
  induction n with
  | zero =>
    refine ⟨?_, ?_, ?_⟩ <;> intro a b c s' h <;>
      simp [qunify, qunify_varS, qzipS] at h
  | succ n ih =>
    obtain ⟨ihu, ihv, ihz⟩ := ih
    refine ⟨?_, ?_, ?_⟩
    · intro x y s s' h
      simp only [qunify] at h
      by_cases hxy : substitute x s = substitute y s
      · rw [if_pos hxy] at h; cases h; exact SubExt_refl s
      · rw [if_neg hxy] at h
        by_cases hvx : is_variable (substitute x s) = true
        · rw [if_pos hvx] at h; exact ihv _ _ _ _ h
        · rw [if_neg hvx] at h
          by_cases hvy : is_variable (substitute y s) = true
          · rw [if_pos hvy] at h; exact ihv _ _ _ _ h
          · rw [if_neg hvy] at h
            cases hta : substitute x s with
            | tup l1 =>
              cases htb : substitute y s with
              | tup l2 =>
                simp only [hta, htb] at h
                by_cases hl : l1.length = l2.length
                · rw [if_pos hl] at h; exact ihz _ _ _ _ h
                · rw [if_neg hl] at h; simp at h
              | str w => simp only [hta, htb] at h; simp at h
              | lst l2 => simp only [hta, htb] at h; simp at h
              | pyNone => simp only [hta, htb] at h; simp at h
            | str w => simp only [hta] at h; simp at h
            | lst l1 => simp only [hta] at h; simp at h
            | pyNone => simp only [hta] at h; simp at h
    · intro v value s s' h
      cases hb : findSub s v with
      | some bound =>
        simp only [qunify_varS, hb] at h
        exact ihu _ _ _ _ h
      | none =>
        simp only [qunify_varS, hb] at h
        cases value with
        | str w =>
          simp only at h
          by_cases hw : is_variable (.str w) = true
          · rw [if_pos hw] at h
            cases hbw : findSub s w with
            | some b => simp only [hbw] at h; exact ihu _ _ _ _ h
            | none => simp only [hbw] at h; exact qVarOcc_ext hb h
          · rw [if_neg hw] at h
            exact qVarOcc_ext hb h
        | tup l => exact qVarOcc_ext hb h
        | lst l => exact qVarOcc_ext hb h
        | pyNone => exact qVarOcc_ext hb h
    · intro xs ys s s' h
      cases xs with
      | nil =>
        cases ys with
        | nil => simp only [qzipS] at h; cases h; exact SubExt_refl s
        | cons y ys => simp only [qzipS] at h; simp at h
      | cons x xs =>
        cases ys with
        | nil => simp only [qzipS] at h; simp at h
        | cons y ys =>
          simp only [qzipS] at h
          cases hu : qunify n x y s with
          | none => rw [hu] at h; exact Option.noConfusion h
          | some o =>
            cases o with
            | none => simp only [hu] at h; simp at h
            | some s1 =>
              simp only [hu] at h
              exact SubExt_trans (ihu _ _ _ _ hu) (ihz _ _ _ _ h)

theorem is_variable_shape : ∀ x : Term, is_variable x = true → x = Term.str (varName x)
  | .str _, _ => rfl
  | .tup _, h => by simp [is_variable] at h
  | .lst _, h => by simp [is_variable] at h
  | .pyNone, h => by simp [is_variable] at h

mutual
/-- Applying an idempotent extension `sf` of `s` absorbs one earlier
application of `s`. -/
theorem subst_subst : ∀ (t : Term) (s sf : Subst), SubExt s sf → Idem sf →
    substitute (substitute t s) sf = substitute t sf
  | .str v, s, sf, hext, hid => by
    cases hb : findSub s v with
    | none => simp [substitute, hb]
    | some b =>
      have hsf : findSub sf v = some b := hext v b hb
      simp [substitute, hb, hsf, hid v b hsf]
  | .tup l, s, sf, hext, hid => by
    simp [substitute, subst_subst_list l s sf hext hid]
  | .lst l, s, sf, _, _ => by simp [substitute]
  | .pyNone, _, _, _, _ => by simp [substitute]

theorem subst_subst_list : ∀ (l : List Term) (s sf : Subst), SubExt s sf → Idem sf →
    substituteList (substituteList l s) sf = substituteList l sf
  | [], _, _, _, _ => rfl
  | t :: ts, s, sf, hext, hid => by
    simp [substituteList, subst_subst t s sf hext hid,
      subst_subst_list ts s sf hext hid]
end

theorem unifyVarOcc_sound {oc : String → Term → Subst → Option Bool}
    {v : String} {value : Term} {s s' : Subst}
    (h : unifyVarOcc oc v value s = some (s', true)) :
    ∀ sf, SubExt s' sf → Idem sf →
      substitute (Term.str v) sf = substitute value sf := by
  intro sf hext hid
  unfold unifyVarOcc at h
  cases hoc : oc v value s with
  | none => rw [hoc] at h; cases h
  | some b =>
    rw [hoc] at h
    cases b
    · cases h
      have hfv : findSub (dictInsert s v value) v = some value :=
        findSub_dictInsert_self s v value
      have hsfv : findSub sf v = some value := hext v value hfv
      simp [substitute, hsfv, hid v value hsfv]
    · cases h

theorem qVarOcc_sound {oc : String → Term → Subst → Option Bool}
    {v : String} {value : Term} {s s' : Subst}
    (h : qVarOcc oc v value s = some (some s')) :
    ∀ sf, SubExt s' sf → Idem sf →
      substitute (Term.str v) sf = substitute value sf := by
  intro sf hext hid
  unfold qVarOcc at h
  cases hoc : oc v value s with
  | none => rw [hoc] at h; cases h
  | some b =>
    rw [hoc] at h
    cases b
    · cases h
      have hfv : findSub (dictInsert s v value) v = some value :=
        findSub_dictInsert_self s v value
      have hsfv : findSub sf v = some value := hext v value hfv
      simp [substitute, hsfv, hid v value hsfv]
    · cases h

/-- Soundness of stage4 unification relative to any idempotent extension of
the final substitution: a successful `unifyS` makes its arguments equal
under one application of such a substitution. -/
theorem unify_sound_all : ∀ n : Nat,
    (∀ x y s s', unifyS n x y s = some (s', true) → ∀ sf, SubExt s' sf → Idem sf →
      substitute x sf = substitute y sf) ∧
    (∀ v value s s', unify_varS n v value s = some (s', true) → ∀ sf, SubExt s' sf → Idem sf →
      substitute (Term.str v) sf = substitute value sf) ∧
    (∀ xs ys s s', zipUnifyS n xs ys s = some (s', true) → ∀ sf, SubExt s' sf → Idem sf →
      substituteList xs sf = substituteList ys sf) := by
  intro n
  induction n with
  | zero =>
    refine ⟨?_, ?_, ?_⟩ <;> intro a b c s' h <;>
      simp [unifyS, unify_varS, zipUnifyS] at h
  | succ n ih =>
    obtain ⟨ihu, ihv, ihz⟩ := ih
    refine ⟨?_, ?_, ?_⟩
    · intro x y s s' h sf hext hid
      simp only [unifyS] at h
      by_cases hxy : x = y
      · rw [hxy]
      · rw [if_neg hxy] at h
        by_cases hvx : is_variable x = true
        · rw [if_pos hvx] at h
          rw [is_variable_shape x hvx]
          exact ihv _ _ _ _ h sf hext hid
        · rw [if_neg hvx] at h
          by_cases hvy : is_variable y = true
          · rw [if_pos hvy] at h
            rw [is_variable_shape y hvy]
            exact (ihv _ _ _ _ h sf hext hid).symm
          · rw [if_neg hvy] at h
            cases x <;> cases y <;> try (cases h)
            rename_i xs ys
            simp only at h
            by_cases hl : xs.length = ys.length
            · rw [if_pos hl] at h
              have := ihz _ _ _ _ h sf hext hid
              simp [substitute, this]
            · rw [if_neg hl] at h; cases h
    · intro v value s s' h sf hext hid
      cases hb : findSub s v with
      | some bound =>
        simp only [unify_varS, hb] at h
        have hext_s : SubExt s s' := (unify_ext_all n).1 _ _ _ _ h
        have hsfv : findSub sf v = some bound := SubExt_trans hext_s hext v bound hb
        have h1 : substitute bound sf = substitute value sf := ihu _ _ _ _ h sf hext hid
        have h2 : substitute bound sf = bound := hid v bound hsfv
        calc substitute (Term.str v) sf = bound := by simp [substitute, hsfv]
          _ = substitute bound sf := h2.symm
          _ = substitute value sf := h1
      | none =>
        simp only [unify_varS, hb] at h
        cases value with
        | str w =>
          simp only at h
          by_cases hw : is_variable (.str w) = true
          · rw [if_pos hw] at h
            cases hbw : findSub s w with
            | some b =>
              simp only [hbw] at h
              have hext_s : SubExt s s' := (unify_ext_all n).1 _ _ _ _ h
              have hsfw : findSub sf w = some b := SubExt_trans hext_s hext w b hbw
              have h1 : substitute (Term.str v) sf = substitute b sf :=
                ihu _ _ _ _ h sf hext hid
              have h2 : substitute b sf = b := hid w b hsfw
              calc substitute (Term.str v) sf = substitute b sf := h1
                _ = b := h2
                _ = substitute (Term.str w) sf := by simp [substitute, hsfw]
            | none =>
              simp only [hbw] at h
              exact unifyVarOcc_sound h sf hext hid
          · rw [if_neg hw] at h
            exact unifyVarOcc_sound h sf hext hid
        | tup l => exact unifyVarOcc_sound h sf hext hid
        | lst l => exact unifyVarOcc_sound h sf hext hid
        | pyNone => exact unifyVarOcc_sound h sf hext hid
    · intro xs ys s s' h sf hext hid
      cases xs with
      | nil =>
        cases ys with
        | nil => simp only [zipUnifyS] at h; cases h; rfl
        | cons y ys => simp only [zipUnifyS] at h; cases h
      | cons x xs =>
        cases ys with
        | nil => simp only [zipUnifyS] at h; cases h
        | cons y ys =>
          simp only [zipUnifyS] at h
          cases hu : unifyS n x y s with
          | none => rw [hu] at h; exact Option.noConfusion h
          | some p =>
            obtain ⟨s1, b⟩ := p
            cases b
            · simp only [hu] at h; cases h
            · simp only [hu] at h
              have hext1 : SubExt s1 s' := (unify_ext_all n).2.2 _ _ _ _ h
              have hhead : substitute x sf = substitute y sf :=
                ihu _ _ _ _ hu sf (SubExt_trans hext1 hext) hid
              have htail := ihz _ _ _ _ h sf hext hid
              simp [substituteList, hhead, htail]

/-- Soundness of quiz unification relative to any idempotent extension of
the final substitution. -/
theorem qunify_sound_all : ∀ n : Nat,
    (∀ x y s s', qunify n x y s = some (some s') → ∀ sf, SubExt s' sf → Idem sf →
      substitute x sf = substitute y sf) ∧
    (∀ v value s s', qunify_varS n v value s = some (some s') → ∀ sf, SubExt s' sf → Idem sf →
      substitute (Term.str v) sf = substitute value sf) ∧
    (∀ xs ys s s', qzipS n xs ys s = some (some s') → ∀ sf, SubExt s' sf → Idem sf →
      substituteList xs sf = substituteList ys sf) := by
  intro n
  induction n with
  | zero =>
    refine ⟨?_, ?_, ?_⟩ <;> intro a b c s' h <;>
      simp [qunify, qunify_varS, qzipS] at h
  | succ n ih =>
    obtain ⟨ihu, ihv, ihz⟩ := ih
    refine ⟨?_, ?_, ?_⟩
    · intro x y s s' h sf hext hid
      simp only [qunify] at h
      by_cases hxy : substitute x s = substitute y s
      · rw [if_pos hxy] at h; cases h
        calc substitute x sf = substitute (substitute x s) sf :=
              (subst_subst x s sf hext hid).symm
          _ = substitute (substitute y s) sf := by rw [hxy]
          _ = substitute y sf := subst_subst y s sf hext hid
      · rw [if_neg hxy] at h
        by_cases hvx : is_variable (substitute x s) = true
        · rw [if_pos hvx] at h
          have hss' : SubExt s s' := (qunify_ext_all n).2.1 _ _ _ _ h
          have hssf : SubExt s sf := SubExt_trans hss' hext
          have h1 := ihv _ _ _ _ h sf hext hid
          rw [← is_variable_shape _ hvx] at h1
          calc substitute x sf = substitute (substitute x s) sf :=
                (subst_subst x s sf hssf hid).symm
            _ = substitute (substitute y s) sf := h1
            _ = substitute y sf := subst_subst y s sf hssf hid
        · rw [if_neg hvx] at h
          by_cases hvy : is_variable (substitute y s) = true
          · rw [if_pos hvy] at h
            have hss' : SubExt s s' := (qunify_ext_all n).2.1 _ _ _ _ h
            have hssf : SubExt s sf := SubExt_trans hss' hext
            have h1 := ihv _ _ _ _ h sf hext hid
            rw [← is_variable_shape _ hvy] at h1
            calc substitute x sf = substitute (substitute x s) sf :=
                  (subst_subst x s sf hssf hid).symm
              _ = substitute (substitute y s) sf := h1.symm
              _ = substitute y sf := subst_subst y s sf hssf hid
          · rw [if_neg hvy] at h
            cases hta : substitute x s with
            | tup l1 =>
              cases htb : substitute y s with
              | tup l2 =>
                simp only [hta, htb] at h
                by_cases hl : l1.length = l2.length
                · rw [if_pos hl] at h
                  have hss' : SubExt s s' := (qunify_ext_all n).2.2 _ _ _ _ h
                  have hssf : SubExt s sf := SubExt_trans hss' hext
                  have hz := ihz _ _ _ _ h sf hext hid
                  calc substitute x sf = substitute (substitute x s) sf :=
                        (subst_subst x s sf hssf hid).symm
                    _ = substitute (Term.tup l1) sf := by rw [hta]
                    _ = substitute (Term.tup l2) sf := by simp [substitute, hz]
                    _ = substitute (substitute y s) sf := by rw [htb]
                    _ = substitute y sf := subst_subst y s sf hssf hid
                · rw [if_neg hl] at h; simp at h
              | str w => simp only [hta, htb] at h; simp at h
              | lst l2 => simp only [hta, htb] at h; simp at h
              | pyNone => simp only [hta, htb] at h; simp at h
            | str w => simp only [hta] at h; simp at h
            | lst l1 => simp only [hta] at h; simp at h
            | pyNone => simp only [hta] at h; simp at h
    · intro v value s s' h sf hext hid
      cases hb : findSub s v with
      | some bound =>
        simp only [qunify_varS, hb] at h
        have hext_s : SubExt s s' := (qunify_ext_all n).1 _ _ _ _ h
        have hsfv : findSub sf v = some bound := SubExt_trans hext_s hext v bound hb
        have h1 : substitute bound sf = substitute value sf := ihu _ _ _ _ h sf hext hid
        have h2 : substitute bound sf = bound := hid v bound hsfv
        calc substitute (Term.str v) sf = bound := by simp [substitute, hsfv]
          _ = substitute bound sf := h2.symm
          _ = substitute value sf := h1
      | none =>
        simp only [qunify_varS, hb] at h
        cases value with
        | str w =>
          simp only at h
          by_cases hw : is_variable (.str w) = true
          · rw [if_pos hw] at h
            cases hbw : findSub s w with
            | some b =>
              simp only [hbw] at h
              have hext_s : SubExt s s' := (qunify_ext_all n).1 _ _ _ _ h
              have hsfw : findSub sf w = some b := SubExt_trans hext_s hext w b hbw
              have h1 : substitute (Term.str v) sf = substitute b sf :=
                ihu _ _ _ _ h sf hext hid
              have h2 : substitute b sf = b := hid w b hsfw
              calc substitute (Term.str v) sf = substitute b sf := h1
                _ = b := h2
                _ = substitute (Term.str w) sf := by simp [substitute, hsfw]
            | none =>
              simp only [hbw] at h
              exact qVarOcc_sound h sf hext hid
          · rw [if_neg hw] at h
            exact qVarOcc_sound h sf hext hid
        | tup l => exact qVarOcc_sound h sf hext hid
        | lst l => exact qVarOcc_sound h sf hext hid
        | pyNone => exact qVarOcc_sound h sf hext hid
    · intro xs ys s s' h sf hext hid
      cases xs with
      | nil =>
        cases ys with
        | nil => simp only [qzipS] at h; cases h; rfl
        | cons y ys => simp only [qzipS] at h; simp at h
      | cons x xs =>
        cases ys with
        | nil => simp only [qzipS] at h; simp at h
        | cons y ys =>
          simp only [qzipS] at h
          cases hu : qunify n x y s with
          | none => rw [hu] at h; exact Option.noConfusion h
          | some o =>
            cases o with
            | none => simp only [hu] at h; simp at h
            | some s1 =>
              simp only [hu] at h
              have hext1 : SubExt s1 s' := (qunify_ext_all n).2.2 _ _ _ _ h
              have hhead : substitute x sf = substitute y sf :=
                ihu _ _ _ _ hu sf (SubExt_trans hext1 hext) hid
              have htail := ihz _ _ _ _ h sf hext hid
              simp [substituteList, hhead, htail]

/-
The state invariant maintained by the stage4 KB: every stored fact is a
nonempty tuple whose top-level elements contain no variable (`is_ground`
does not descend into nested tuples, so nothing deeper is guaranteed).
-/

def FactsOK (kb : S4KB) : Prop :=
  ∀ f ∈ kb.facts, is_ground f = true ∧ is_pred_tuple f = true

theorem S4_add_fact_facts {kb kb' : S4KB} {fact : Term} {r : Except String Bool}
    (h : S4_add_fact kb fact = (kb', r)) (hkb : FactsOK kb) : FactsOK kb' := by
  unfold S4_add_fact at h
  by_cases h1 : is_pred_tuple fact = false
  · rw [if_pos h1] at h; cases h; exact hkb
  · rw [if_neg h1] at h
    by_cases h2 : is_ground fact = false
    · rw [if_pos h2] at h; cases h; exact hkb
    · rw [if_neg h2] at h
      have h1' : is_pred_tuple fact = true := by
        revert h1; cases is_pred_tuple fact <;> simp
      have h2' : is_ground fact = true := by
        revert h2; cases is_ground fact <;> simp
      by_cases h3 : fact ∈ kb.facts
      · rw [if_pos h3] at h; cases h; exact hkb
      · rw [if_neg h3] at h; cases h
        intro f hf
        rcases List.mem_append.mp hf with hf | hf
        · exact hkb f hf
        · have hef : f = fact := by simpa using hf
          subst hef
          exact ⟨h2', h1'⟩

theorem S4_mint_facts : ∀ (vl : List Term) (kb : S4KB) (acc : Subst),
    (S4_mint kb vl acc).1.facts = kb.facts
  | [], _, _ => rfl
  | v :: rest, kb, acc => by
    cases v with
    | str s =>
      by_cases hv : is_variable (.str s) = true
      · simp only [S4_mint, if_pos hv]
        exact S4_mint_facts rest _ _
      · simp only [S4_mint, if_neg hv]
    | tup l => rfl
    | lst l => rfl
    | pyNone => rfl

theorem S4_instantiate_exists_facts (kb : S4KB) (expr : Term) :
    (S4_instantiate_exists kb expr).1.facts = kb.facts := by
  unfold S4_instantiate_exists
  cases expr with
  | tup l =>
    match l with
    | [] => rfl
    | [_] => rfl
    | [_, _] => rfl
    | [a, vars, body] =>
      cases hs : listFromSeq vars with
      | none => simp [hs]
      | some vlist =>
        simp only [hs]
        cases hm : S4_mint kb vlist [] with
        | mk kb1 res =>
          have : kb1.facts = kb.facts := by
            have := S4_mint_facts vlist kb []
            rw [hm] at this
            exact this
          cases res <;> simp [this]
    | _ :: _ :: _ :: _ :: _ => rfl
  | str s => rfl
  | lst l => rfl
  | pyNone => rfl

theorem S4_try_add_facts {kb kb' : S4KB} {fact : Term} {o : S4Out}
    (h : S4_try_add kb fact = (kb', o)) (hkb : FactsOK kb) : FactsOK kb' := by
  unfold S4_try_add at h
  cases fact with
  | tup l =>
    simp only at h
    by_cases hg : is_ground (Term.tup l) = true
    · rw [if_pos hg] at h
      cases ha : S4_add_fact kb (Term.tup l) with
      | mk kb1 r =>
        cases r with
        | ok b =>
          cases b <;> simp only [ha] at h <;> cases h <;>
            exact S4_add_fact_facts ha hkb
        | error e =>
          simp only [ha] at h; cases h
          exact S4_add_fact_facts ha hkb
    · rw [if_neg hg] at h; cases h; exact hkb
  | str s => cases h; exact hkb
  | lst l => cases h; exact hkb
  | pyNone => cases h; exact hkb

theorem S4_apply_sub_facts {kb kb' : S4KB} {rule : Rule} {θ : Subst} {o : S4Out}
    (h : S4_apply_sub kb rule θ = (kb', o)) (hkb : FactsOK kb) : FactsOK kb' := by
  unfold S4_apply_sub at h
  by_cases he : is_exists (substitute rule.conclusion θ) = true
  · rw [if_pos he] at h
    cases hi : S4_instantiate_exists kb (substitute rule.conclusion θ) with
    | mk kb1 res =>
      have hf1 : kb1.facts = kb.facts := by
        have := S4_instantiate_exists_facts kb (substitute rule.conclusion θ)
        rw [hi] at this
        exact this
      have hkb1 : FactsOK kb1 := by
        intro f hf; rw [hf1] at hf; exact hkb f hf
      cases res with
      | ok fact =>
        simp only [hi] at h
        exact S4_try_add_facts h hkb1
      | error e =>
        simp only [hi] at h; cases h; exact hkb1
  · rw [if_neg he] at h
    exact S4_try_add_facts h hkb

theorem S4_run_sols_facts : ∀ (sols : List Subst) (kb : S4KB) (rule : Rule)
    (hp added : Bool) (kb' : S4KB) (b : Bool) (e : Option String),
    S4_run_sols kb rule hp added sols = (kb', b, e) → FactsOK kb → FactsOK kb'
  | [], kb, rule, hp, added, kb', b, e, h, hkb => by cases h; exact hkb
  | θ :: rest, kb, rule, hp, added, kb', b, e, h, hkb => by
    simp only [S4_run_sols] at h
    cases ha : S4_apply_sub kb rule θ with
    | mk kb1 o =>
      have hkb1 : FactsOK kb1 := S4_apply_sub_facts ha hkb
      cases o with
      | cont =>
        simp only [ha] at h
        exact S4_run_sols_facts rest kb1 rule hp added kb' b e h hkb1
      | raised msg => simp only [ha] at h; cases h; exact hkb1
      | added =>
        simp only [ha] at h
        cases hp with
        | true => cases h; exact hkb1
        | false => exact S4_run_sols_facts rest kb1 rule false true kb' b e h hkb1

theorem S4_run_rules_facts : ∀ (rules : List Rule) (fuel : Nat) (kb : S4KB)
    (added : Bool) (kb' : S4KB) (b : Bool) (e : Option String),
    S4_run_rules fuel kb added rules = some (kb', b, e) → FactsOK kb → FactsOK kb'
  | [], fuel, kb, added, kb', b, e, h, hkb => by cases h; exact hkb
  | r :: rs, fuel, kb, added, kb', b, e, h, hkb => by
    simp only [S4_run_rules] at h
    cases hs : S4_solutions fuel kb.facts r.premises [] with
    | none => rw [hs] at h; exact Option.noConfusion h
    | some sols =>
      simp only [hs] at h
      cases hr : S4_run_sols kb r (!r.premises.isEmpty) added sols with
      | mk kb1 p =>
        obtain ⟨added1, e1⟩ := p
        have hkb1 : FactsOK kb1 := S4_run_sols_facts sols kb r _ added kb1 added1 e1 hr hkb
        cases e1 with
        | some msg => simp only [hr] at h; cases h; exact hkb1
        | none =>
          simp only [hr] at h
          exact S4_run_rules_facts rs fuel kb1 added1 kb' b e h hkb1

theorem S4_forward_chain_facts : ∀ (iters fuel : Nat) (kb kb' : S4KB)
    (e : Option String),
    S4_forward_chain fuel kb iters = some (kb', e) → FactsOK kb → FactsOK kb'
  | 0, fuel, kb, kb', e, h, hkb => by cases h; exact hkb
  | n + 1, fuel, kb, kb', e, h, hkb => by
    simp only [S4_forward_chain] at h
    cases hr : S4_run_rules fuel kb false kb.rules with
    | none => rw [hr] at h; exact Option.noConfusion h
    | some p =>
      obtain ⟨kb1, added1, e1⟩ := p
      have hkb1 : FactsOK kb1 :=
        S4_run_rules_facts kb.rules fuel kb false kb1 added1 e1 hr hkb
      cases e1 with
      | some msg => simp only [hr] at h; cases h; exact hkb1
      | none =>
        cases added1 with
        | true =>
          simp only [hr] at h
          exact S4_forward_chain_facts n fuel kb1 kb' e h hkb1
        | false => simp only [hr] at h; cases h; exact hkb1

/-- The stage4 KB states reachable through the public API, starting from
`KB()` (construction with initial facts/rules is the same sequence of
`add_fact`/`add_rule` calls; `query` does not mutate). -/
inductive S4Reach : S4KB → Prop where
  | init : S4Reach (S4KB.mk [] [] 0)
  | addf {kb kb' : S4KB} {f : Term} {r : Except String Bool} :
      S4Reach kb → S4_add_fact kb f = (kb', r) → S4Reach kb'
  | addr {kb kb' : S4KB} {e : RuleExpr} {r : Except String Unit} :
      S4Reach kb → S4_add_rule kb e = (kb', r) → S4Reach kb'
  | fc {kb kb' : S4KB} {fuel m : Nat} {e : Option String} :
      S4Reach kb → S4_forward_chain fuel kb m = some (kb', e) → S4Reach kb'

theorem S4_add_rule_facts {kb kb' : S4KB} {e : RuleExpr} {r : Except String Unit}
    (h : S4_add_rule kb e = (kb', r)) : kb'.facts = kb.facts := by
  unfold S4_add_rule at h
  cases e with
  | rule r0 => cases h; rfl
  | raw t =>
    cases hp : S4_parse_rule t with
    | error m => simp only [hp] at h; cases h; rfl
    | ok r0 => simp only [hp] at h; cases h; rfl

theorem S4Reach_FactsOK {kb : S4KB} (h : S4Reach kb) : FactsOK kb := by
  induction h with
  | init => intro f hf; cases hf
  | addf _ hstep ih => exact S4_add_fact_facts hstep ih
  | addr _ hstep ih =>
    have hf := S4_add_rule_facts hstep
    intro f hff
    rw [hf] at hff
    exact ih f hff
  | fc _ hstep ih => exact S4_forward_chain_facts _ _ _ _ _ hstep ih

theorem findSub_mem : ∀ (s : Subst) (v : String) (t : Term),
    findSub s v = some t → (v, t) ∈ s
  | [], _, _, h => by cases h
  | (k, u) :: rest, v, t, h => by
    simp only [findSub] at h
    by_cases hk : k = v
    · rw [if_pos hk] at h; cases h; subst hk
      exact List.mem_cons_self _ _
    · rw [if_neg hk] at h
      exact List.mem_cons_of_mem _ (findSub_mem rest v t h)

theorem ground_deep_not_var : ∀ a : Term, ground_deep a = true → is_variable a = false
  | .str s, h => by
    simp only [ground_deep] at h
    cases hv : is_variable (.str s)
    · rfl
    · rw [hv] at h; simp at h
  | .tup _, _ => rfl
  | .lst _, _ => rfl
  | .pyNone, _ => rfl

theorem ground_deep_list_mem : ∀ (l : List Term), ground_deep_list l = true →
    ∀ a ∈ l, ground_deep a = true
  | [], _, a, ha => by cases ha
  | t :: ts, h, a, ha => by
    simp only [ground_deep_list, Bool.and_eq_true] at h
    cases List.mem_cons.mp ha with
    | inl he => rw [he]; exact h.1
    | inr hm => exact ground_deep_list_mem ts h.2 a hm

/-- A tuple that is ground in the spec's deep sense passes the code's
top-level `is_ground` check. -/
theorem ground_deep_tup_is_ground (l : List Term)
    (h : ground_deep (Term.tup l) = true) : is_ground (Term.tup l) = true := by
  simp only [ground_deep] at h
  simp only [is_ground, List.all_eq_true]
  intro a ha
  rw [ground_deep_not_var a (ground_deep_list_mem l h a ha)]
  rfl

/-- Lines 128-131 of stage4 `forward_chain`: a fact candidate that is not
a tuple, or fails the top-level groundness test, is dropped with `continue`
before `add_fact` is reached. -/
theorem S4_try_add_skip : ∀ (kb : S4KB) (fact : Term),
    (isTup fact = false ∨ is_ground fact = false) →
    S4_try_add kb fact = (kb, S4Out.cont)
  | kb, .tup l, hskip => by
    cases hskip with
    | inl habs => simp [isTup] at habs
    | inr hg =>
      have hg' : ¬ (is_ground (Term.tup l) = true) := by simp [hg]
      simp only [S4_try_add]
      rw [if_neg hg']
  | _, .str _, _ => rfl
  | _, .lst _, _ => rfl
  | _, .pyNone, _ => rfl

/-- For a non-existential conclusion the skip test applies to the
substituted conclusion itself: nothing changes and nothing is raised. -/
theorem S4_apply_sub_skip {kb : S4KB} {rule : Rule} {θ : Subst}
    (hne : is_exists (substitute rule.conclusion θ) = false)
    (hskip : isTup (substitute rule.conclusion θ) = false ∨
             is_ground (substitute rule.conclusion θ) = false) :
    S4_apply_sub kb rule θ = (kb, S4Out.cont) := by
  have hne' : ¬ (is_exists (substitute rule.conclusion θ) = true) := by simp [hne]
  simp only [S4_apply_sub]
  rw [if_neg hne']
  exact S4_try_add_skip kb _ hskip

/-- For an existential conclusion whose instantiation succeeds, the skip
test applies to the post-skolemization fact; the KB keeps the Skolem
counter advanced by the instantiation but nothing is raised and no fact is
added. -/
theorem S4_apply_sub_exists_skip {kb kb' : S4KB} {rule : Rule} {θ : Subst}
    {fact : Term}
    (he : is_exists (substitute rule.conclusion θ) = true)
    (hi : S4_instantiate_exists kb (substitute rule.conclusion θ) =
      (kb', Except.ok fact))
    (hskip : isTup fact = false ∨ is_ground fact = false) :
    S4_apply_sub kb rule θ = (kb', S4Out.cont) := by
  simp only [S4_apply_sub]
  rw [if_pos he]
  simp only [hi]
  exact S4_try_add_skip kb' fact hskip

theorem S4_query_facts_count : ∀ (fuel : Nat) (pattern : Term)
    (facts : List Term) (ans : List Subst),
    S4_query_facts fuel pattern facts = some ans →
    ans.length = facts.countP (fun f =>
      match unifyS fuel pattern f [] with
      | some (_, true) => true
      | _ => false)
  | _, _, [], ans, h => by cases h; rfl
  | fuel, pattern, f :: fs, ans, h => by
    simp only [S4_query_facts] at h
    cases hu : unifyS fuel pattern f [] with
    | none => rw [hu] at h; exact Option.noConfusion h
    | some p =>
      obtain ⟨θ, b⟩ := p
      cases b
      · simp only [hu] at h
        have ih := S4_query_facts_count fuel pattern fs ans h
        simp [List.countP_cons, hu, ih]
      · simp only [hu] at h
        cases hr : S4_query_facts fuel pattern fs with
        | none => rw [hr] at h; exact Option.noConfusion h
        | some rest =>
          simp only [hr] at h; cases h
          have ih := S4_query_facts_count fuel pattern fs rest hr
          simp [List.countP_cons, hu, ih]

theorem Q_query_facts_count : ∀ (fuel : Nat) (pattern : Term)
    (facts : List Term) (ans : List Subst),
    Q_query_facts fuel pattern facts = some ans →
    ans.length = facts.countP (fun f =>
      match qunify fuel pattern f [] with
      | some (some _) => true
      | _ => false)
  | _, _, [], ans, h => by cases h; rfl
  | fuel, pattern, f :: fs, ans, h => by
    simp only [Q_query_facts] at h
    cases hu : qunify fuel pattern f [] with
    | none => rw [hu] at h; exact Option.noConfusion h
    | some o =>
      cases o with
      | none =>
        simp only [hu] at h
        have ih := Q_query_facts_count fuel pattern fs ans h
        simp [List.countP_cons, hu, ih]
      | some θ =>
        simp only [hu] at h
        cases hr : Q_query_facts fuel pattern fs with
        | none => rw [hr] at h; exact Option.noConfusion h
        | some rest =>
          simp only [hr] at h; cases h
          have ih := Q_query_facts_count fuel pattern fs rest hr
          simp [List.countP_cons, hu, ih]

/-
The claims.
-/

/-- C1: the claim says a successful `unify(a, b, {})` with result `s` makes
`substitute(a, s) == substitute(b, s)` after a single application.  That
fails when `s` chains variables (see the counterexample); the amended
statement proved here: in both implementations, whenever `unify(a, b, {})`
succeeds with `s` and `s` is idempotent (no bound value is changed by one
further application of `s`), a single `substitute` equalizes the terms. -/
theorem C1_unify_soundness_amended :
    (∀ (fuel : Nat) (a b : Term) (s : Subst), unifyS fuel a b [] = some (s, true) →
      (∀ p ∈ s, substitute p.2 s = p.2) →
      substitute a s = substitute b s) ∧
    (∀ (fuel : Nat) (a b : Term) (s : Subst), qunify fuel a b [] = some (some s) →
      (∀ p ∈ s, substitute p.2 s = p.2) →
      substitute a s = substitute b s) := by
  constructor
  · intro fuel a b s h hid
    exact (unify_sound_all fuel).1 a b [] s h s (SubExt_refl s)
      (fun v t ht => hid (v, t) (findSub_mem s v t ht))
  · intro fuel a b s h hid
    exact (qunify_sound_all fuel).1 a b [] s h s (SubExt_refl s)
      (fun v t ht => hid (v, t) (findSub_mem s v t ht))

/-- Witness for C1: a concrete successful unification with an idempotent
result, where the amended theorem yields the equality. -/
theorem C1_unify_soundness_witness :
    (unifyS 10 (Term.tup [Term.str "?x", Term.str "c"])
        (Term.tup [Term.str "b", Term.str "?y"]) [] =
      some ([("?x", Term.str "b"), ("?y", Term.str "c")], true)) ∧
    substitute (Term.tup [Term.str "?x", Term.str "c"])
        [("?x", Term.str "b"), ("?y", Term.str "c")] =
      substitute (Term.tup [Term.str "b", Term.str "?y"])
        [("?x", Term.str "b"), ("?y", Term.str "c")] :=
  ⟨by decide, C1_unify_soundness_amended.1 10 _ _ _ (by decide) (by decide)⟩

/-- Counterexample for C1 as stated: with `a = ("?x","?y")`,
`b = ("?y","c")` both unifiers succeed with `{?x: ?y, ?y: c}`, yet one
application of `substitute` gives `("?y","c")` versus `("c","c")`. -/
theorem C1_unify_soundness_cex :
    (unifyS 10 (Term.tup [Term.str "?x", Term.str "?y"])
        (Term.tup [Term.str "?y", Term.str "c"]) [] =
      some ([("?x", Term.str "?y"), ("?y", Term.str "c")], true)) ∧
    (qunify 10 (Term.tup [Term.str "?x", Term.str "?y"])
        (Term.tup [Term.str "?y", Term.str "c"]) [] =
      some (some [("?x", Term.str "?y"), ("?y", Term.str "c")])) ∧
    substitute (Term.tup [Term.str "?x", Term.str "?y"])
        [("?x", Term.str "?y"), ("?y", Term.str "c")] ≠
      substitute (Term.tup [Term.str "?y", Term.str "c"])
        [("?x", Term.str "?y"), ("?y", Term.str "c")] :=
  ⟨by decide, by decide, by decide⟩

/-- C2: on the ancestor scenario the quiz implementation derives exactly
`ancestor(alice,bob)`, `ancestor(bob,carol)`, `ancestor(alice,carol)` and a
second `forward_chain` call changes nothing; the stage4 implementation
aborts with `RuntimeError: Set changed size during iteration` at the first
derived fact because its premise generator iterates the live fact set. -/
theorem C2_fixpoint_scenario :
    (S4_init [t_parent_ab, t_parent_bc] [RuleExpr.raw rule1_raw, RuleExpr.raw rule2_raw] =
      Except.ok (S4KB.mk [t_parent_ab, t_parent_bc] [rule1, rule2] 0)) ∧
    (Q_init [t_parent_ab, t_parent_bc] [RuleExpr.raw rule1_raw, RuleExpr.raw rule2_raw] =
      Except.ok (QKB.mk [t_parent_ab, t_parent_bc] [rule1, rule2] 0)) ∧
    (Q_forward_chain 100 (QKB.mk [t_parent_ab, t_parent_bc] [rule1, rule2] 0) 50 =
      some (QKB.mk [t_parent_ab, t_parent_bc, t_anc_ab, t_anc_bc, t_anc_ac]
        [rule1, rule2] 0)) ∧
    (Q_forward_chain 100
        (QKB.mk [t_parent_ab, t_parent_bc, t_anc_ab, t_anc_bc, t_anc_ac] [rule1, rule2] 0) 50 =
      some (QKB.mk [t_parent_ab, t_parent_bc, t_anc_ab, t_anc_bc, t_anc_ac]
        [rule1, rule2] 0)) ∧
    (S4_forward_chain 100 (S4KB.mk [t_parent_ab, t_parent_bc] [rule1, rule2] 0) 50 =
      some (S4KB.mk [t_parent_ab, t_parent_bc, t_anc_ab] [rule1, rule2] 0,
        some "RuntimeError: Set changed size during iteration")) :=
  ⟨by decide, by decide, by decide, by decide, by decide⟩

/-- Counterexample for C3 as stated: stage4 has no redundancy check, so a
second `forward_chain` call re-applies the existential rule with the same
premise substitution (`?x = mary`) although `mother(_sk1, mary)` already
matches the body pattern, minting a second Skolem constant `_sk2` and
adding a second fact. -/
theorem C3_exists_redundancy_cex :
    (S4_forward_chain 100 (S4KB.mk [t_person_mary] [rule_ex] 0) 50 =
      some (S4KB.mk
          [t_person_mary, Term.tup [Term.str "mother", Term.str "_sk1", Term.str "mary"]]
          [rule_ex] 1,
        some "RuntimeError: Set changed size during iteration")) ∧
    (S4_forward_chain 100
        (S4KB.mk
          [t_person_mary, Term.tup [Term.str "mother", Term.str "_sk1", Term.str "mary"]]
          [rule_ex] 1) 50 =
      some (S4KB.mk
          [t_person_mary,
            Term.tup [Term.str "mother", Term.str "_sk1", Term.str "mary"],
            Term.tup [Term.str "mother", Term.str "_sk2", Term.str "mary"]]
          [rule_ex] 2,
        some "RuntimeError: Set changed size during iteration")) :=
  ⟨by decide, by decide⟩

/-- C3 amended: the redundancy check exists only in the quiz
implementation, where it works as claimed: the existential rule fires once
(`_sk0`), and all later applications with the same binding for `?x` are
skipped — another full `forward_chain` call leaves the facts and the Skolem
counter unchanged. -/
theorem C3_exists_redundancy_amended :
    (Q_forward_chain 100 (QKB.mk [t_person_mary] [rule_ex] 0) 50 =
      some (QKB.mk
        [t_person_mary, Term.tup [Term.str "mother", Term.str "_sk0", Term.str "mary"]]
        [rule_ex] 1)) ∧
    (Q_forward_chain 100
        (QKB.mk
          [t_person_mary, Term.tup [Term.str "mother", Term.str "_sk0", Term.str "mary"]]
          [rule_ex] 1) 50 =
      some (QKB.mk
        [t_person_mary, Term.tup [Term.str "mother", Term.str "_sk0", Term.str "mary"]]
        [rule_ex] 1)) :=
  ⟨by decide, by decide⟩

/-- Counterexample for C4 as stated: the quiz `add_fact` validates nothing
and stores a fact containing a variable, and the stage4 `is_ground` checks
only top-level arguments, so a fact with a variable inside a nested tuple
is accepted there as well. -/
theorem C4_ground_invariant_cex :
    (Q_add_fact (QKB.mk [] [] 0) (Term.tup [Term.str "parent", Term.str "?x", Term.str "bob"]) =
      (QKB.mk [Term.tup [Term.str "parent", Term.str "?x", Term.str "bob"]] [] 0, true)) ∧
    (S4_add_fact (S4KB.mk [] [] 0) (Term.tup [Term.str "p", Term.tup [Term.str "q", Term.str "?x"]]) =
      (S4KB.mk [Term.tup [Term.str "p", Term.tup [Term.str "q", Term.str "?x"]]] [] 0,
        Except.ok true)) ∧
    ground_deep (Term.tup [Term.str "p", Term.tup [Term.str "q", Term.str "?x"]]) = false :=
  ⟨by decide, by decide, by decide⟩

/-- C4 amended: in the stage4 implementation, at every reachable point of a
KB's lifetime every stored fact is a nonempty tuple with no variable among
its top-level elements (nested argument tuples are not inspected; the quiz
implementation maintains no such invariant). -/
theorem C4_ground_invariant_amended {kb : S4KB} (h : S4Reach kb) :
    ∀ f ∈ kb.facts, is_ground f = true ∧ is_pred_tuple f = true :=
  S4Reach_FactsOK h

/-- Witness for C4: a state reached by one `add_fact` call satisfies the
invariant. -/
theorem C4_ground_invariant_witness :
    is_ground t_p_a = true ∧ is_pred_tuple t_p_a = true :=
  C4_ground_invariant_amended
    (@S4Reach.addf (S4KB.mk [] [] 0) (S4KB.mk [t_p_a] [] 0) t_p_a (Except.ok true)
      S4Reach.init (by decide)) t_p_a (by decide)

/-- Counterexample for C5 as stated: the quiz `add_fact` accepts
`("parent","?x","bob")`, returns `True` and mutates the fact set. -/
theorem C5_addfact_validation_cex :
    Q_add_fact (QKB.mk [t_p_a] [] 0) (Term.tup [Term.str "parent", Term.str "?x", Term.str "bob"]) =
      (QKB.mk [t_p_a, Term.tup [Term.str "parent", Term.str "?x", Term.str "bob"]] [] 0, true) :=
  by decide

/-- C5 amended: in the stage4 implementation `add_fact` on any non-ground
argument raises a `ValueError` and leaves the KB exactly as it was. -/
theorem C5_addfact_validation_amended :
    ∀ (kb : S4KB) (f : Term), is_ground f = false →
      (S4_add_fact kb f).1 = kb ∧ ∃ e, (S4_add_fact kb f).2 = Except.error e := by
  intro kb f hg
  unfold S4_add_fact
  by_cases h1 : is_pred_tuple f = false
  · rw [if_pos h1]; exact ⟨rfl, _, rfl⟩
  · rw [if_neg h1, if_pos hg]; exact ⟨rfl, _, rfl⟩

/-- Witness for C5 at the claim's input `("parent","?x","bob")`. -/
theorem C5_addfact_validation_witness :
    is_ground (Term.tup [Term.str "parent", Term.str "?x", Term.str "bob"]) = false ∧
    ((S4_add_fact (S4KB.mk [t_p_a] [] 0)
        (Term.tup [Term.str "parent", Term.str "?x", Term.str "bob"])).1 =
          S4KB.mk [t_p_a] [] 0 ∧
      ∃ e, (S4_add_fact (S4KB.mk [t_p_a] [] 0)
        (Term.tup [Term.str "parent", Term.str "?x", Term.str "bob"])).2 =
          Except.error e) :=
  ⟨by decide, C5_addfact_validation_amended _ _ (by decide)⟩

/-- Counterexample for C6 as stated: in the quiz implementation a single
`forward_chain(max_iterations=1)` pass over `p(a)` with rules
`p(?x) -> q(?x)` and `q(?x) -> r(?x)` derives `q(a)` AND `r(a)`: the fact
`q(a)` inserted during the iteration was matched by the second rule's
premise search in the same iteration (each search level snapshots the live
fact list when it is entered, not when the iteration began). -/
theorem C6_snapshot_cex :
    Q_forward_chain 100 (QKB.mk [t_p_a] [rule_pq, rule_qr] 0) 1 =
      some (QKB.mk [t_p_a, t_q_a, t_r_a] [rule_pq, rule_qr] 0) ∧
    t_r_a ∈ [t_p_a, t_q_a, t_r_a] :=
  ⟨by decide, by decide⟩

/-- C6 amended: neither implementation gives iteration-start snapshot
semantics.  The stage4 implementation aborts with a RuntimeError at the
first derived fact (so `r(a)` is never derived and the derived `q(a)` is
never matched), while the quiz implementation makes facts derived earlier
in the same iteration visible to later premise searches of that iteration
(it derives `r(a)` within the single allowed iteration). -/
theorem C6_snapshot_amended :
    (S4_forward_chain 100 (S4KB.mk [t_p_a] [rule_pq, rule_qr] 0) 1 =
      some (S4KB.mk [t_p_a, t_q_a] [rule_pq, rule_qr] 0,
        some "RuntimeError: Set changed size during iteration")) ∧
    (Q_forward_chain 100 (QKB.mk [t_p_a] [rule_pq, rule_qr] 0) 1 =
      some (QKB.mk [t_p_a, t_q_a, t_r_a] [rule_pq, rule_qr] 0)) :=
  ⟨by decide, by decide⟩

/-- Counterexample for C7 as stated: stage4 `unify` on
`(("?x","a"), ("b","c"))` fails, yet the binding `?x -> b` made by the
first element-wise step remains in the caller's dictionary (the model
returns the final state of the mutated dict alongside the failure flag). -/
theorem C7_frame_cex :
    unifyS 10 (Term.tup [Term.str "?x", Term.str "a"])
        (Term.tup [Term.str "b", Term.str "c"]) [] =
      some ([("?x", Term.str "b")], false) :=
  by decide

/-- C7 amended: stage4 `unify` can leave bindings from sub-steps before a
failure in the caller's substitution; what does hold is the frame property
that existing bindings are never removed or altered — the final dictionary
always extends the one passed in, on success and on failure alike.  (The
quiz `unify_var` copies before writing and never mutates its argument,
which is why its model is a pure function.) -/
theorem C7_frame_amended :
    ∀ (fuel : Nat) (x y : Term) (s s' : Subst) (ok : Bool),
      unifyS fuel x y s = some (s', ok) →
      ∀ v t, findSub s v = some t → findSub s' v = some t := by
  intro fuel x y s s' ok h
  exact (unify_ext_all fuel).1 x y s (s', ok) h

/-- Witness for C7: a pre-existing binding survives a failing unification. -/
theorem C7_frame_witness :
    (unifyS 10 (Term.tup [Term.str "?x", Term.str "a"])
        (Term.tup [Term.str "b", Term.str "c"]) [("?q", Term.str "k")] =
      some ([("?q", Term.str "k"), ("?x", Term.str "b")], false)) ∧
    findSub [("?q", Term.str "k"), ("?x", Term.str "b")] "?q" = some (Term.str "k") :=
  ⟨by decide,
    C7_frame_amended 10 (Term.tup [Term.str "?x", Term.str "a"])
      (Term.tup [Term.str "b", Term.str "c"]) [("?q", Term.str "k")]
      [("?q", Term.str "k"), ("?x", Term.str "b")] false (by decide) "?q"
      (Term.str "k") (by decide)⟩

/-- C8: `query` returns one substitution per stored fact the pattern
unifies with, without deduplication (the answer count equals the number of
matching facts, in both implementations), and on the ancestor KB of the
fixpoint scenario `query(("ancestor","?who","carol"))` returns exactly two
substitutions, binding `?who` to `bob` and to `alice`. -/
theorem C8_query_scenario :
    (Q_query 100
        ((Q_forward_chain 100 (QKB.mk [t_parent_ab, t_parent_bc] [rule1, rule2] 0) 50).getD
          (QKB.mk [] [] 0))
        (Term.tup [Term.str "ancestor", Term.str "?who", Term.str "carol"]) =
      some [[("?who", Term.str "bob")], [("?who", Term.str "alice")]]) ∧
    (S4_query 100 (S4KB.mk [t_parent_ab, t_parent_bc, t_anc_ab, t_anc_bc, t_anc_ac] [] 0)
        (Term.tup [Term.str "ancestor", Term.str "?who", Term.str "carol"]) =
      some [[("?who", Term.str "bob")], [("?who", Term.str "alice")]]) ∧
    (∀ (fuel : Nat) (kb : S4KB) (pattern : Term) (ans : List Subst),
      S4_query fuel kb pattern = some ans →
      ans.length = kb.facts.countP (fun f =>
        match unifyS fuel pattern f [] with
        | some (_, true) => true
        | _ => false)) ∧
    (∀ (fuel : Nat) (kb : QKB) (pattern : Term) (ans : List Subst),
      Q_query fuel kb pattern = some ans →
      ans.length = kb.facts.countP (fun f =>
        match qunify fuel pattern f [] with
        | some (some _) => true
        | _ => false)) := by
  refine ⟨by decide, by decide, ?_, ?_⟩
  · intro fuel kb pattern ans h
    exact S4_query_facts_count fuel pattern kb.facts ans h
  · intro fuel kb pattern ans h
    exact Q_query_facts_count fuel pattern kb.facts ans h

/-- Witness for C8's universally quantified part at the scenario KB. -/
theorem C8_query_scenario_witness :
    (S4_query 100 (S4KB.mk [t_parent_ab, t_parent_bc, t_anc_ab, t_anc_bc, t_anc_ac] [] 0)
        (Term.tup [Term.str "ancestor", Term.str "?who", Term.str "carol"]) =
      some [[("?who", Term.str "bob")], [("?who", Term.str "alice")]]) ∧
    ([[("?who", Term.str "bob")], [("?who", Term.str "alice")]] : List Subst).length =
      (S4KB.mk [t_parent_ab, t_parent_bc, t_anc_ab, t_anc_bc, t_anc_ac] [] 0).facts.countP
        (fun f =>
          match unifyS 100 (Term.tup [Term.str "ancestor", Term.str "?who", Term.str "carol"]) f [] with
          | some (_, true) => true
          | _ => false) :=
  ⟨by decide,
    C8_query_scenario.2.2.1 100
      (S4KB.mk [t_parent_ab, t_parent_bc, t_anc_ab, t_anc_bc, t_anc_ac] [] 0)
      (Term.tup [Term.str "ancestor", Term.str "?who", Term.str "carol"])
      [[("?who", Term.str "bob")], [("?who", Term.str "alice")]] (by decide)⟩

/-- C9: for a ground predicate not already present, `addFact` answers
`true` then `false`, and the fact set grows by exactly one — in both
implementations. -/
theorem C9_addfact_idempotence :
    ∀ (kb : S4KB) (qkb : QKB) (f : Term),
      is_pred_tuple f = true → ground_deep f = true →
      f ∉ kb.facts → f ∉ qkb.facts →
      (S4_add_fact kb f =
          (S4KB.mk (kb.facts ++ [f]) kb.rules kb.exist_counter, Except.ok true) ∧
        S4_add_fact (S4KB.mk (kb.facts ++ [f]) kb.rules kb.exist_counter) f =
          (S4KB.mk (kb.facts ++ [f]) kb.rules kb.exist_counter, Except.ok false) ∧
        (kb.facts ++ [f]).length = kb.facts.length + 1) ∧
      (Q_add_fact qkb f = (QKB.mk (qkb.facts ++ [f]) qkb.rules qkb.exist_counter, true) ∧
        Q_add_fact (QKB.mk (qkb.facts ++ [f]) qkb.rules qkb.exist_counter) f =
          (QKB.mk (qkb.facts ++ [f]) qkb.rules qkb.exist_counter, false) ∧
        (qkb.facts ++ [f]).length = qkb.facts.length + 1) := by
  intro kb qkb f hp hgd hm hqm
  have hl : ∃ l, f = Term.tup l := by
    cases f with
    | tup l => exact ⟨l, rfl⟩
    | str s => simp [is_pred_tuple] at hp
    | lst l => simp [is_pred_tuple] at hp
    | pyNone => simp [is_pred_tuple] at hp
  obtain ⟨l, rfl⟩ := hl
  have hg : is_ground (Term.tup l) = true := ground_deep_tup_is_ground l hgd
  have hp' : ¬ (is_pred_tuple (Term.tup l) = false) := by simp [hp]
  have hg' : ¬ (is_ground (Term.tup l) = false) := by simp [hg]
  have hmem2 : Term.tup l ∈ kb.facts ++ [Term.tup l] := by simp
  constructor
  · refine ⟨?_, ?_, by simp⟩
    · unfold S4_add_fact
      rw [if_neg hp', if_neg hg', if_neg hm]
    · unfold S4_add_fact
      rw [if_neg hp', if_neg hg']
      simp only
      rw [if_pos hmem2]
  · have hqmem2 : Term.tup l ∈ qkb.facts ++ [Term.tup l] := by simp
    refine ⟨?_, ?_, by simp⟩
    · unfold Q_add_fact
      rw [if_neg hqm]
    · unfold Q_add_fact
      simp only
      rw [if_pos hqmem2]

/-- Witness for C9 at `("p","a")` on empty KBs. -/
theorem C9_addfact_idempotence_witness :
    (S4_add_fact (S4KB.mk [] [] 0) t_p_a =
        (S4KB.mk ((S4KB.mk [] [] 0).facts ++ [t_p_a]) [] 0, Except.ok true) ∧
      S4_add_fact (S4KB.mk ((S4KB.mk [] [] 0).facts ++ [t_p_a]) [] 0) t_p_a =
        (S4KB.mk ((S4KB.mk [] [] 0).facts ++ [t_p_a]) [] 0, Except.ok false) ∧
      ((S4KB.mk [] [] 0).facts ++ [t_p_a]).length = (S4KB.mk [] [] 0).facts.length + 1) ∧
    (Q_add_fact (QKB.mk [] [] 0) t_p_a =
        (QKB.mk ((QKB.mk [] [] 0).facts ++ [t_p_a]) [] 0, true) ∧
      Q_add_fact (QKB.mk ((QKB.mk [] [] 0).facts ++ [t_p_a]) [] 0) t_p_a =
        (QKB.mk ((QKB.mk [] [] 0).facts ++ [t_p_a]) [] 0, false) ∧
      ((QKB.mk [] [] 0).facts ++ [t_p_a]).length = (QKB.mk [] [] 0).facts.length + 1) :=
  C9_addfact_idempotence (S4KB.mk [] [] 0) (QKB.mk [] [] 0) t_p_a
    (by decide) (by decide) (by decide) (by decide)

/-- Counterexample for C10 as stated: a rule concluding
`("EXISTS","?z",("m","?z","?x"))` is expressible (neither `add_rule` nor
`_parse_rule` validates conclusions), and with the satisfying substitution
`?x = a` the substituted conclusion is a tuple that fails `is_ground` (its
second element is the variable `"?z"`), so it is within the claim's scope;
yet stage4 raises `ValueError: Existential quantifier expects iterable of
variables` from `_instantiate_exists` instead of skipping silently, and
`forward_chain` aborts with that error rather than continuing. -/
theorem C10_silent_skip_cex :
    (isTup (substitute rule_ex_badvars.conclusion [("?x", Term.str "a")]) = true ∧
      is_ground (substitute rule_ex_badvars.conclusion [("?x", Term.str "a")]) = false) ∧
    S4_apply_sub (S4KB.mk [t_p_a] [rule_ex_badvars] 0) rule_ex_badvars
        [("?x", Term.str "a")] =
      (S4KB.mk [t_p_a] [rule_ex_badvars] 0,
        S4Out.raised "Existential quantifier expects iterable of variables") ∧
    S4_forward_chain 100 (S4KB.mk [t_p_a] [rule_ex_badvars] 0) 50 =
      some (S4KB.mk [t_p_a] [rule_ex_badvars] 0,
        some "Existential quantifier expects iterable of variables") :=
  ⟨⟨by decide, by decide⟩, by decide, by decide⟩

/-- C10 amended: during stage4 forward chaining, a substitution whose
conclusion instance is not a tuple or fails `is_ground` is skipped
silently — KB unchanged, nothing raised, no fact added — provided the
instance is not itself EXISTS-shaped; for an EXISTS-shaped instance whose
`_instantiate_exists` succeeds, the same silent skip applies to the
post-skolemization fact (the Skolem counter still advances), while an
EXISTS instance with an invalid variable slot raises a ValueError instead
of being skipped (see the counterexample).  Concretely: a forward chain
whose rules produce only skips or already-known facts returns normally
with the fact set untouched, and one whose existential rule always
produces an unground skolemized body returns normally having only
advanced the Skolem counter. -/
theorem C10_silent_skip :
    (∀ (kb : S4KB) (rule : Rule) (θ : Subst),
      is_exists (substitute rule.conclusion θ) = false →
      (isTup (substitute rule.conclusion θ) = false ∨
        is_ground (substitute rule.conclusion θ) = false) →
      S4_apply_sub kb rule θ = (kb, S4Out.cont)) ∧
    (∀ (kb kb' : S4KB) (rule : Rule) (θ : Subst) (fact : Term),
      is_exists (substitute rule.conclusion θ) = true →
      S4_instantiate_exists kb (substitute rule.conclusion θ) =
        (kb', Except.ok fact) →
      (isTup fact = false ∨ is_ground fact = false) →
      S4_apply_sub kb rule θ = (kb', S4Out.cont)) ∧
    (S4_forward_chain 100
        (S4KB.mk [t_p_a] [rule_skip_str, rule_skip_unground, rule_dup] 0) 50 =
      some (S4KB.mk [t_p_a] [rule_skip_str, rule_skip_unground, rule_dup] 0, none)) ∧
    (S4_forward_chain 100 (S4KB.mk [t_p_a] [rule_ex_unground] 0) 50 =
      some (S4KB.mk [t_p_a] [rule_ex_unground] 1, none)) := by
  refine ⟨?_, ?_, by decide, by decide⟩
  · intro kb rule θ hne hskip
    exact S4_apply_sub_skip hne hskip
  · intro kb kb' rule θ fact he hi hskip
    exact S4_apply_sub_exists_skip he hi hskip

/-- Witness for C10: the unground non-existential conclusion instance
`("q","a","?y")` is skipped without changing the KB, and the unground
skolemized body `("m","_sk1","?y")` of a well-formed existential
conclusion is skipped with only the Skolem counter advanced. -/
theorem C10_silent_skip_witness :
    ((is_exists (substitute rule_skip_unground.conclusion [("?x", Term.str "a")]) = false ∧
        is_ground (substitute rule_skip_unground.conclusion [("?x", Term.str "a")]) = false) ∧
      S4_apply_sub (S4KB.mk [t_p_a] [rule_skip_unground] 0) rule_skip_unground
          [("?x", Term.str "a")] =
        (S4KB.mk [t_p_a] [rule_skip_unground] 0, S4Out.cont)) ∧
    ((is_exists (substitute rule_ex_unground.conclusion [("?x", Term.str "a")]) = true ∧
        S4_instantiate_exists (S4KB.mk [t_p_a] [rule_ex_unground] 0)
            (substitute rule_ex_unground.conclusion [("?x", Term.str "a")]) =
          (S4KB.mk [t_p_a] [rule_ex_unground] 1,
            Except.ok (Term.tup [Term.str "m", Term.str "_sk1", Term.str "?y"])) ∧
        is_ground (Term.tup [Term.str "m", Term.str "_sk1", Term.str "?y"]) = false) ∧
      S4_apply_sub (S4KB.mk [t_p_a] [rule_ex_unground] 0) rule_ex_unground
          [("?x", Term.str "a")] =
        (S4KB.mk [t_p_a] [rule_ex_unground] 1, S4Out.cont)) :=
  ⟨⟨⟨by decide, by decide⟩,
    C10_silent_skip.1 (S4KB.mk [t_p_a] [rule_skip_unground] 0) rule_skip_unground
      [("?x", Term.str "a")] (by decide) (Or.inr (by decide))⟩,
   ⟨⟨by decide, by decide, by decide⟩,
    C10_silent_skip.2.1 (S4KB.mk [t_p_a] [rule_ex_unground] 0)
      (S4KB.mk [t_p_a] [rule_ex_unground] 1) rule_ex_unground
      [("?x", Term.str "a")] (Term.tup [Term.str "m", Term.str "_sk1", Term.str "?y"])
      (by decide) (by decide) (Or.inr (by decide))⟩⟩
